import Mathlib

/-!
Verification of the `precommit-sync-files` sync engine
(`precommit_sync_files/sync.py` and the exit-code mapping in
`precommit_sync_files/cli.py`) against its natural-language specification.

The embedding models the filesystem as an association list from path
strings to file nodes.  A node is either a readable file with its byte
content, or a file that exists but whose read raises an `IOError`
(Python `open`/`read` failing).  Failure injection for writes is carried
by the `badWrite` field (paths at which `shutil.copy2` raises
`IOError`/`OSError`, paired with the OS error text) and `badMkdir`
(directory paths at which `Path.mkdir(parents=True, exist_ok=True)`
raises `OSError`).  The SHA-256 hex digest is an uninterpreted parameter
`hash : Bytes → String`; the code only ever compares digests for
equality, and copying never consults the digest, so every theorem below
holds for the real SHA-256 when instantiated with it.
-/

namespace SyncFiles

/-- Raw file contents: a list of byte values. -/
abbrev Bytes := List Nat

/-- A filesystem node: readable content, or a file that exists but whose
read raises an IOError carrying the given OS error text. -/
inductive FileNode
  | readable (bytes : Bytes)
  | unreadable (emsg : String)
deriving DecidableEq

/-- First-match association-list lookup (Python dict access /
`Path.exists` on our path-indexed filesystem). -/
def lookupKey {α : Type} : List (String × α) → String → Option α
  | [], _ => none
  | (k, v) :: rest, key => if k = key then some v else lookupKey rest key

/-- The filesystem state a sync run operates on.  `files` holds every
existing file (both under the fetched source checkout and under the
consuming repository root); `badWrite` and `badMkdir` inject the
I/O failures Python would surface as `OSError`. -/
structure FS where
  files : List (String × FileNode)
  badWrite : List (String × String)
  badMkdir : List (String × String)
deriving DecidableEq

def FS.lookupFile (fs : FS) (p : String) : Option FileNode :=
  lookupKey fs.files p

/-- Models `Path.exists()` on our filesystem. -/
def FS.pathExists (fs : FS) (p : String) : Bool :=
  (fs.lookupFile p).isSome

/-- Successful `open(p, "rb").read()`: the bytes, when the file exists
and is readable. -/
def FS.readBytes (fs : FS) (p : String) : Option Bytes :=
  match fs.lookupFile p with
  | some (.readable b) => some b
  | _ => none

/-- Writing `b` to path `p` (the effect of a successful
`shutil.copy2`): the new entry shadows any older one. -/
def FS.writeFile (fs : FS) (p : String) (b : Bytes) : FS :=
  { fs with files := (p, .readable b) :: fs.files }

/-- The `pathlib` `/` join of a root with a relative path. -/
def resolve (root rel : String) : String := root ++ "/" ++ rel

/-- Models `Path.parent`: everything before the last path separator.  The
sync engine only takes parents of resolved destination paths, which
always contain a separator. -/
def parentPath (p : String) : String :=
  String.mk (((p.data.reverse.dropWhile (fun c => c ≠ '/')).drop 1).reverse)

/-- OS error text of a `FileNotFoundError` for path `p`. -/
def fileNotFoundMsg (p : String) : String :=
  "No such file or directory: " ++ p

/-- Message of the `FileComparisonError` raised by `compute_file_hash`:
`f"Failed to read file {file_path}: {e}"`. -/
def readFailMsg (p e : String) : String :=
  "Failed to read file " ++ p ++ ": " ++ e

/-- Reason `compare_files` gives when the source file is missing:
`f"Source file {source_file} does not exist in source repository"`. -/
def srcMissingMsg (source_file : String) : String :=
  "Source file " ++ source_file ++ " does not exist in source repository"

/-- Reason `compare_files` gives when the destination file is missing:
`f"Destination file {dest_file} does not exist in consuming repository"`. -/
def dstMissingMsg (dest_file : String) : String :=
  "Destination file " ++ dest_file ++ " does not exist in consuming repository"

/-- Reason `compare_files` gives on differing digests:
`f"File {dest_file} differs from source (hash mismatch)"`. -/
def hashMismatchMsg (dest_file : String) : String :=
  "File " ++ dest_file ++ " differs from source (hash mismatch)"

/-- Message of the `FileComparisonError` raised by `sync_file`:
`f"Failed to copy {source_file} to {dest_path}: {e}"`. -/
def copyFailMsg (source_file dest_path e : String) : String :=
  "Failed to copy " ++ source_file ++ " to " ++ dest_path ++ ": " ++ e

/-- Models `compute_file_hash(file_path)`: reads the file and returns the hex
digest `hash(content)`, or the `FileComparisonError` message when the
read raises `IOError` (a missing file raises `FileNotFoundError`, an
`IOError` subclass, from `open`). -/
def compute_file_hash (hash : Bytes → String) (fs : FS) (p : String) :
    Except String String :=
  match fs.lookupFile p with
  | some (.readable b) => .ok (hash b)
  | some (.unreadable e) => .error (readFailMsg p e)
  | none => .error (readFailMsg p (fileNotFoundMsg p))

/-- Models `compare_files(source_file, dest_file, repo_root)`: returns
`(are_equal, optional reason)`, checking source existence, then
destination existence, then comparing digests; a `FileComparisonError`
from either digest computation is caught and returned as
`(False, str(e))`. -/
def compare_files (hash : Bytes → String) (fs : FS)
    (source_file dest_file repo_root : String) : Bool × Option String :=
  let source_path := source_file
  let dest_path := resolve repo_root dest_file
  if ¬ fs.pathExists source_path then
    (false, some (srcMissingMsg source_file))
  else if ¬ fs.pathExists dest_path then
    (false, some (dstMissingMsg dest_file))
  else
    match compute_file_hash hash fs source_path with
    | .error e => (false, some e)
    | .ok source_hash =>
      match compute_file_hash hash fs dest_path with
      | .error e => (false, some e)
      | .ok dest_hash =>
        if source_hash = dest_hash then (true, none)
        else (false, some (hashMismatchMsg dest_file))

/-- Exceptions escaping `sync_file`: the `FileComparisonError` it raises
when `shutil.copy2` fails (caught by `sync_files`), and the uncaught
`OSError` from `dest_path.parent.mkdir(...)`, which sits outside the
`try` block in the source. -/
inductive Exn
  | fileComparisonError (msg : String)
  | osError (msg : String)
deriving DecidableEq

/-- Models `sync_file(source_file, dest_file, repo_root)`: create the parent
directories of the destination (an `OSError` here propagates uncaught),
then copy the source bytes onto the destination; `copy2` opens the
source first, so a missing or unreadable source fails before a bad
destination does. -/
def sync_file (fs : FS) (source_file dest_file repo_root : String) :
    Except Exn FS :=
  let dest_path := resolve repo_root dest_file
  match lookupKey fs.badMkdir (parentPath dest_path) with
  | some e => .error (.osError e)
  | none =>
    match fs.lookupFile source_file with
    | none =>
      .error (.fileComparisonError
        (copyFailMsg source_file dest_path (fileNotFoundMsg source_file)))
    | some (.unreadable e) =>
      .error (.fileComparisonError (copyFailMsg source_file dest_path e))
    | some (.readable b) =>
      match lookupKey fs.badWrite dest_path with
      | some e =>
        .error (.fileComparisonError (copyFailMsg source_file dest_path e))
      | none => .ok (fs.writeFile dest_path b)

/-- The configuration fields `sync_files` reads out of the validated
config dictionary: `config["source"]["repo"]`, `config["source"]["ref"]`,
`config["files"]` as `(src, dst)` pairs, and `config["options"]["mode"]`. -/
structure Config where
  repo : String
  ref : String
  files : List (String × String)
  mode : String
deriving DecidableEq

/-- The warning line `f"Synced {dst_path}: {diff_msg}"`. -/
def syncedMsg (dst diff_msg : String) : String :=
  "Synced " ++ dst ++ ": " ++ diff_msg

/-- The check-mode error line `f"{dst_path}: {diff_msg}"`. -/
def checkErrMsg (dst diff_msg : String) : String :=
  dst ++ ": " ++ diff_msg

/-- The comparison pass of `sync_files`: for each `(src, dst)` entry, in
order, resolve the source under the fetched checkout and compare;
collect `(source_file, dst_path, diff_msg)` for every mismatch.  In the
source a `False` verdict always carries a reason, so `getD ""` never
fires. -/
def collectMismatches (hash : Bytes → String) (fs : FS)
    (source_repo repo_root : String) (files : List (String × String)) :
    List (String × String × String) :=
  files.filterMap (fun sd =>
    let source_file := resolve source_repo sd.1
    match compare_files hash fs source_file sd.2 repo_root with
    | (true, _) => none
    | (false, m) => some (source_file, sd.2, m.getD ""))

/-- The write-mode loop of `sync_files`: for each mismatch, try
`sync_file`; on success append a `Synced` warning, on
`FileComparisonError` append the error and continue, and let any other
exception (the uncaught mkdir `OSError`) abort the run. -/
def syncWriteLoop (fs : FS) (repo_root : String) :
    List (String × String × String) →
    Except Exn (List String × List String × FS)
  | [] => .ok ([], [], fs)
  | (source_file, dst, diff_msg) :: rest =>
    match sync_file fs source_file dst repo_root with
    | .ok fs1 =>
      match syncWriteLoop fs1 repo_root rest with
      | .ok (errs, warns, fs2) =>
        .ok (errs, syncedMsg dst diff_msg :: warns, fs2)
      | .error e => .error e
    | .error (.fileComparisonError em) =>
      match syncWriteLoop fs repo_root rest with
      | .ok (errs, warns, fs2) => .ok (em :: errs, warns, fs2)
      | .error e => .error e
    | .error (.osError em) => .error (.osError em)

/-- Models `sync_files(config, repo_root, write_mode)` after a successful
fetch of the source checkout into `source_repo`: compare every mapping
in declaration order, then either return clean, run the write loop, or
report one check-mode error per mismatch.  The returned `FS` is the
filesystem after the run. -/
def sync_files (hash : Bytes → String) (config : Config)
    (repo_root : String) (write_mode : Bool) (source_repo : String)
    (fs : FS) : Except Exn (List String × List String × FS) :=
  let should_write := write_mode || (config.mode == "write")
  let mismatches := collectMismatches hash fs source_repo repo_root config.files
  if mismatches.isEmpty then .ok ([], [], fs)
  else if should_write then syncWriteLoop fs repo_root mismatches
  else .ok (mismatches.map (fun m => checkErrMsg m.2.1 m.2.2), [], fs)

/-- The exit code `cli.main` produces from the outcome of `sync_files`:
any escaping exception yields 1; otherwise 1 when the error list is
non-empty and 0 otherwise. -/
def cli_exit_after_sync
    (r : Except Exn (List String × List String × FS)) : Nat :=
  match r with
  | .error _ => 1
  | .ok (errors, _, _) => if errors.isEmpty then 0 else 1

/-- A small concrete stand-in for the SHA-256 hex digest, used only to
instantiate witnesses and counterexamples: it renders each byte modulo
75 as one printable character, so it is injective on the tiny byte
lists appearing below. -/
def demoHash (b : Bytes) : String :=
  String.mk (b.map (fun n => Char.ofNat (48 + n % 75)))

/-- The absolute destination path of a mismatch record. -/
def destOf (root : String) (m : String × String × String) : String :=
  resolve root m.2.1

/-- Whether the copy of mismatch record `m` raises
`FileComparisonError`: the source is missing or unreadable, or the
destination is write-injected to fail. -/
def copyFails (fs : FS) (root : String) (m : String × String × String) :
    Bool :=
  !(fs.readBytes m.1).isSome ||
    (lookupKey fs.badWrite (destOf root m)).isSome

/-- The OS error text inside the copy-failure message of `m`. -/
def copyFailText (fs : FS) (root : String) (m : String × String × String) :
    String :=
  match fs.lookupFile m.1 with
  | none => fileNotFoundMsg m.1
  | some (.unreadable e) => e
  | some (.readable _) => (lookupKey fs.badWrite (destOf root m)).getD ""

/-- The error the write loop appends for a failing mismatch record. -/
def loopErrMsg (fs : FS) (root : String) (m : String × String × String) :
    String :=
  copyFailMsg m.1 (destOf root m) (copyFailText fs root m)

/-- The warning the write loop appends for a successful mismatch record. -/
def loopWarnMsg (m : String × String × String) : String :=
  syncedMsg m.2.1 m.2.2

/-! ### The config loader (`load_config`) and the CLI exit mapping

A parsed TOML document is modelled by `Toml`; tables are association
lists (first match wins, as for Python dict keys, which are unique in
documents `tomllib` produces).  `load_config_validate` is the
validation and default-injection part of `load_config` (everything
after `tomllib.load` returns), including the Python dynamic-typing
behaviour of `"mode" not in config["options"]` and of item assignment
on a non-dict `options` value, which raise an uncaught `TypeError`
rather than a `ConfigError`. -/

inductive Toml
  | str (s : String)
  | int (n : Int)
  | boolean (b : Bool)
  | table (kvs : List (String × Toml))
  | arr (xs : List Toml)

/-- Python dict assignment `d[k] = v`: replace in place or append. -/
def tableSet : List (String × Toml) → String → Toml → List (String × Toml)
  | [], k, v => [(k, v)]
  | (k0, v0) :: rest, k, v =>
    if k0 = k then (k, v) :: rest else (k0, v0) :: tableSet rest k v

/-- Result of the Python expression `key in value`: key lookup on a
dict, substring test on a str, element equality on a list, and a
`TypeError` on the remaining TOML value kinds. -/
inductive MemResult
  | found
  | absent
  | typeErr
deriving DecidableEq

/-- Character-list prefix test. -/
def charsStart : List Char → List Char → Bool
  | [], _ => true
  | _ :: _, [] => false
  | a :: as, b :: bs => a == b && charsStart as bs

/-- Character-list substring test (`pat` occurs inside `s`). -/
def charsHasSub : List Char → List Char → Bool
  | pat, [] => pat.isEmpty
  | pat, b :: bs => charsStart pat (b :: bs) || charsHasSub pat bs

/-- Python `pat in s` on strings. -/
def strContainsSub (s pat : String) : Bool := charsHasSub pat.data s.data

/-- Python `x == key` for a TOML value against a string literal: only
equal strings compare equal. -/
def pyEqStr (key : String) (x : Toml) : Bool :=
  match x with
  | .str s => s == key
  | _ => false

def pyMem (key : String) (v : Toml) : MemResult :=
  match v with
  | .table kvs => if (lookupKey kvs key).isSome then .found else .absent
  | .str s => if strContainsSub s key then .found else .absent
  | .arr xs => if xs.any (pyEqStr key) then .found else .absent
  | _ => .typeErr

/-- Outcome of `load_config`: the (mutated) config dict, a
`ConfigError` with its message, or an uncaught `TypeError` from the
dynamic `options` handling. -/
inductive LoadOutcome
  | ok (cfg : Toml)
  | configError (msg : String)
  | typeError

/-- Decimal digit character, `48 + d % 10`. -/
def digitChar (d : Nat) : Char := Char.ofNat (48 + d % 10)

/-- Decimal rendering of a natural number (what `f"{i}"` produces),
written with explicit fuel so that it is structurally recursive. -/
def natCharsGo : Nat → Nat → List Char → List Char
  | 0, n, acc => digitChar n :: acc
  | fuel + 1, n, acc =>
    if n < 10 then digitChar n :: acc
    else natCharsGo fuel (n / 10) (digitChar (n % 10) :: acc)

def natStr (n : Nat) : String := String.mk (natCharsGo n n [])

/-- One entry of the `files` list: must be a dict containing `src` and
`dst`; the message carries the entry index as in
`f"files[{i}] ..."`. -/
def checkFileEntry (i : Nat) (e : Toml) : Option String :=
  match e with
  | .table kvs =>
    if (lookupKey kvs "src").isNone then
      some ("files[" ++ natStr i ++ "] missing required field: src")
    else if (lookupKey kvs "dst").isNone then
      some ("files[" ++ natStr i ++ "] missing required field: dst")
    else none
  | _ => some ("files[" ++ natStr i ++ "] must be a dictionary")

/-- The indexed loop over `config["files"]`, returning the first
validation failure. -/
def checkFileEntries : Nat → List Toml → Option String
  | _, [] => none
  | i, e :: rest =>
    match checkFileEntry i e with
    | some m => some m
    | none => checkFileEntries (i + 1) rest

/-- The self-pinning step at the end of `load_config`: when
`get_hook_version()` returned a version, overwrite
`config["source"]["ref"]` with it. -/
def applyHookVersion (hookVersion : Option String)
    (kvs : List (String × Toml)) : List (String × Toml) :=
  match hookVersion with
  | none => kvs
  | some v =>
    match lookupKey kvs "source" with
    | some (.table srcKvs) =>
        tableSet kvs "source" (.table (tableSet srcKvs "ref" (.str v)))
    | _ => kvs

/-- Python `config["options"]["mode"] in ("check", "write")`. -/
def modeOk (m : Toml) : Bool := pyEqStr "check" m || pyEqStr "write" m

/-- The tail of `load_config` after the `options` defaulting: read
`config["options"]["mode"]`, require it to be `check` or `write`,
apply the hook-version override, and return the config. -/
def finishMode (hookVersion : Option String)
    (kvs : List (String × Toml)) : LoadOutcome :=
  match lookupKey kvs "options" with
  | some (.table optKvs) =>
    match lookupKey optKvs "mode" with
    | some m =>
      if modeOk m then .ok (.table (applyHookVersion hookVersion kvs))
      else .configError "options.mode must be \x27check\x27 or \x27write\x27"
    | none => .typeError
  | _ => .typeError

/-- The validation part of `load_config` (source lines 44-87): field
checks in source order, `options`/`mode` defaulting with Python
dynamic-typing semantics, the mode check, then the hook-version
override. -/
def load_config_validate (hookVersion : Option String)
    (config : Toml) : LoadOutcome :=
  match config with
  | .table kvs =>
    match lookupKey kvs "source" with
    | none => .configError "Missing required field: source"
    | some src =>
      match src with
      | .table srcKvs =>
        if (lookupKey srcKvs "repo").isNone then
          .configError "Missing required field: source.repo"
        else if (lookupKey srcKvs "ref").isNone then
          .configError "Missing required field: source.ref"
        else
          match lookupKey kvs "files" with
          | none => .configError "Missing required field: files"
          | some fv =>
            match fv with
            | .arr fl =>
              if fl.isEmpty then
                .configError
                  "Field \x27files\x27 must contain at least one file mapping"
              else
                match checkFileEntries 0 fl with
                | some m => .configError m
                | none =>
                  let kvs1 :=
                    if (lookupKey kvs "options").isNone then
                      tableSet kvs "options" (.table [])
                    else kvs
                  match lookupKey kvs1 "options" with
                  | some opts =>
                    match pyMem "mode" opts with
                    | .typeErr => .typeError
                    | .absent =>
                      match opts with
                      | .table optKvs =>
                        finishMode hookVersion
                          (tableSet kvs1 "options"
                            (.table (tableSet optKvs "mode" (.str "check"))))
                      | _ => .typeError
                    | .found =>
                      match opts with
                      | .table _ => finishMode hookVersion kvs1
                      | _ => .typeError
                  | none => .typeError
            | _ => .configError "Field \x27files\x27 must be a list"
      | _ => .configError "Field \x27source\x27 must be a dictionary"
  | _ => .configError "Configuration must be a TOML table"

/-- The situations `load_config` can find itself in before validation:
no config file located, the read raising `OSError`, `tomllib` raising a
decode `ValueError`, or a successfully parsed document. -/
inductive LoadInput
  | notFound
  | readError (e : String)
  | parseError (e : String)
  | parsed (t : Toml)

/-- The missing-config message, the no-op signal. -/
def noopMsg : String :=
  ".sync-files.toml not found. The hook is a no-op if config is missing."

/-- The marker substring `cli.main` tests for. -/
def noopKey : String := ".sync-files.toml not found"

/-- Models `load_config`: missing file raises the no-op `ConfigError`; read
and parse failures raise `ConfigError`s embedding the underlying error
text; a parsed document is validated. -/
def load_config (hookVersion : Option String) :
    LoadInput → LoadOutcome
  | .notFound => .configError noopMsg
  | .readError e =>
      .configError ("Failed to read .sync-files.toml: " ++ e)
  | .parseError e =>
      .configError ("Failed to parse .sync-files.toml: " ++ e)
  | .parsed t => load_config_validate hookVersion t

/-- The exit code `cli.main` produces from a `ConfigError` message:
0 when the message contains the no-op marker, 1 otherwise. -/
def handle_config_error (msg : String) : Nat :=
  if strContainsSub msg noopKey then 0 else 1

/-- The acceptance conditions on one `files` entry. -/
def fileEntryOk (e : Toml) : Bool :=
  match e with
  | .table kvs => (lookupKey kvs "src").isSome && (lookupKey kvs "dst").isSome
  | _ => false

/-- The acceptance conditions on the `options` value: absent, or a
table whose `mode`, if present, is `check` or `write`. -/
def optionsOk (kvs : List (String × Toml)) : Bool :=
  match lookupKey kvs "options" with
  | none => true
  | some (.table optKvs) =>
    match lookupKey optKvs "mode" with
    | none => true
    | some m => modeOk m
  | some _ => false

/-- The exact class of parsed configurations `load_config` accepts. -/
def acceptsConfig (c : Toml) : Bool :=
  match c with
  | .table kvs =>
    (match lookupKey kvs "source" with
     | some (.table s) =>
        (lookupKey s "repo").isSome && (lookupKey s "ref").isSome
     | _ => false)
    && (match lookupKey kvs "files" with
        | some (.arr l) => !l.isEmpty && l.all fileEntryOk
        | _ => false)
    && optionsOk kvs
  | _ => false

/-! ### Helper lemmas about the filesystem model -/

theorem lookupFile_writeFile (fs : FS) (p q : String) (b : Bytes) :
    (fs.writeFile p b).lookupFile q =
      if p = q then some (.readable b) else fs.lookupFile q := by
  simp [FS.writeFile, FS.lookupFile, lookupKey]

theorem readBytes_writeFile (fs : FS) (p q : String) (b : Bytes) :
    (fs.writeFile p b).readBytes q =
      if p = q then some b else fs.readBytes q := by
  by_cases h : p = q <;>
    simp [FS.readBytes, lookupFile_writeFile, h]

theorem badWrite_writeFile (fs : FS) (p : String) (b : Bytes) :
    (fs.writeFile p b).badWrite = fs.badWrite := rfl

theorem badMkdir_writeFile (fs : FS) (p : String) (b : Bytes) :
    (fs.writeFile p b).badMkdir = fs.badMkdir := rfl

theorem compute_file_hash_congr (hash : Bytes → String) {fs1 fs2 : FS}
    {p : String} (h : fs1.lookupFile p = fs2.lookupFile p) :
    compute_file_hash hash fs1 p = compute_file_hash hash fs2 p := by
  simp [compute_file_hash, h]

theorem compare_files_congr (hash : Bytes → String) {fs1 fs2 : FS}
    {s d r : String} (hs : fs1.lookupFile s = fs2.lookupFile s)
    (hd : fs1.lookupFile (resolve r d) = fs2.lookupFile (resolve r d)) :
    compare_files hash fs1 s d r = compare_files hash fs2 s d r := by
  simp [compare_files, FS.pathExists, compute_file_hash, hs, hd]

theorem compute_file_hash_of_readBytes (hash : Bytes → String) {fs : FS}
    {p : String} {b : Bytes} (h : fs.readBytes p = some b) :
    compute_file_hash hash fs p = .ok (hash b) := by
  unfold FS.readBytes at h
  unfold compute_file_hash
  cases hl : fs.lookupFile p with
  | none => rw [hl] at h; exact absurd h (by simp)
  | some node =>
    cases node with
    | readable c => rw [hl] at h; simp at h; simp [h]
    | unreadable e => rw [hl] at h; exact absurd h (by simp)

theorem pathExists_of_readBytes {fs : FS} {p : String} {b : Bytes}
    (h : fs.readBytes p = some b) : fs.pathExists p = true := by
  unfold FS.readBytes at h
  unfold FS.pathExists
  cases hl : fs.lookupFile p with
  | none => rw [hl] at h; exact absurd h (by simp)
  | some node => simp

/-! ### The write-mode loop: partition characterization

`copyFails` decides, from the filesystem as it stood when the loop
started, whether `sync_file` will raise `FileComparisonError` for a
mismatch record (destination paths that alias no source path keep this
decision stable while the loop writes). -/

theorem copyFails_writeFile {fs : FS} {root p : String} {b : Bytes}
    {m : String × String × String} (h : p ≠ m.1) :
    copyFails (fs.writeFile p b) root m = copyFails fs root m := by
  simp [copyFails, readBytes_writeFile, badWrite_writeFile, h]

theorem loopErrMsg_writeFile {fs : FS} {root p : String} {b : Bytes}
    {m : String × String × String} (h : p ≠ m.1) :
    loopErrMsg (fs.writeFile p b) root m = loopErrMsg fs root m := by
  simp [loopErrMsg, copyFailText, lookupFile_writeFile,
    badWrite_writeFile, h]

/-- When `sync_file` raises `FileComparisonError` for `m`, its message
is `loopErrMsg` and it is raised exactly when `copyFails` holds (given
that the mkdir step does not fail). -/
theorem sync_file_spec (fs : FS) (root : String)
    (m : String × String × String)
    (hM : lookupKey fs.badMkdir (parentPath (destOf root m)) = none) :
    (copyFails fs root m = true ∧
      sync_file fs m.1 m.2.1 root =
        .error (.fileComparisonError (loopErrMsg fs root m))) ∨
    (copyFails fs root m = false ∧ ∃ b, fs.readBytes m.1 = some b ∧
      sync_file fs m.1 m.2.1 root = .ok (fs.writeFile (destOf root m) b)) := by
  simp only [sync_file]
  rw [show resolve root m.2.1 = destOf root m from rfl, hM]
  cases hl : fs.lookupFile m.1 with
  | none =>
    left
    constructor
    · simp [copyFails, FS.readBytes, hl]
    · simp [loopErrMsg, copyFailText, hl]
  | some node =>
    cases node with
    | unreadable e =>
      left
      constructor
      · simp [copyFails, FS.readBytes, hl]
      · simp [loopErrMsg, copyFailText, hl]
    | readable b =>
      cases hw : lookupKey fs.badWrite (destOf root m) with
      | some e =>
        left
        constructor
        · simp [copyFails, hw]
        · simp [loopErrMsg, copyFailText, hl, hw]
      | none =>
        right
        constructor
        · simp [copyFails, FS.readBytes, hl, hw]
        · exact ⟨b, by simp [FS.readBytes, hl], by simp⟩

/-- The write loop, when no mkdir step fails and no destination path
aliases a source path, returns: the copy-failure messages of the
failing records and the `Synced` warnings of the succeeding records,
each in list order, with paths outside the destinations untouched. -/
theorem syncWriteLoop_partition (root : String)
    (L : List (String × String × String)) :
    ∀ fs : FS,
    (∀ m ∈ L, lookupKey fs.badMkdir (parentPath (destOf root m)) = none) →
    (∀ m ∈ L, ∀ m2 ∈ L, destOf root m ≠ m2.1) →
    ∃ fsF,
      syncWriteLoop fs root L = .ok
        ((L.filter (copyFails fs root)).map (loopErrMsg fs root),
         (L.filter (fun m => !copyFails fs root m)).map loopWarnMsg, fsF) ∧
      fsF.badWrite = fs.badWrite ∧ fsF.badMkdir = fs.badMkdir ∧
      (∀ p, (∀ m ∈ L, p ≠ destOf root m) →
        fsF.lookupFile p = fs.lookupFile p) := by
  induction L with
  | nil =>
    intro fs _ _
    exact ⟨fs, rfl, rfl, rfl, fun p _ => rfl⟩
  | cons m rest ih =>
    intro fs hM hD
    obtain ⟨s, d, dm⟩ := m
    have hMm := hM (s, d, dm) (List.mem_cons_self _ _)
    have hMrest : ∀ m' ∈ rest,
        lookupKey fs.badMkdir (parentPath (destOf root m')) = none :=
      fun m' hm' => hM m' (List.mem_cons_of_mem _ hm')
    have hDrest : ∀ m' ∈ rest, ∀ m2 ∈ rest, destOf root m' ≠ m2.1 :=
      fun m' hm' m2 hm2 =>
        hD m' (List.mem_cons_of_mem _ hm') m2 (List.mem_cons_of_mem _ hm2)
    rcases sync_file_spec fs root (s, d, dm) hMm with ⟨hf, hs⟩ | ⟨hf, b, hb, hs⟩
    · obtain ⟨fsF, hloop, hbw, hbm, hun⟩ := ih fs hMrest hDrest
      refine ⟨fsF, ?_, hbw, hbm,
        fun p hp => hun p (fun m' hm' => hp m' (List.mem_cons_of_mem _ hm'))⟩
      simp only [syncWriteLoop, hs, hloop]
      simp [List.filter_cons, hf]
    · have hdm : ∀ m2 ∈ rest, destOf root (s, d, dm) ≠ m2.1 :=
        fun m2 hm2 =>
          hD (s, d, dm) (List.mem_cons_self _ _) m2 (List.mem_cons_of_mem _ hm2)
      have hMrest1 : ∀ m' ∈ rest,
          lookupKey (fs.writeFile (destOf root (s, d, dm)) b).badMkdir
            (parentPath (destOf root m')) = none := by
        intro m' hm'
        rw [badMkdir_writeFile]
        exact hMrest m' hm'
      obtain ⟨fsF, hloop, hbw, hbm, hun⟩ :=
        ih (fs.writeFile (destOf root (s, d, dm)) b) hMrest1 hDrest
      have hcf : ∀ m' ∈ rest,
          copyFails (fs.writeFile (destOf root (s, d, dm)) b) root m' =
            copyFails fs root m' :=
        fun m' hm' => copyFails_writeFile (hdm m' hm')
      have hfilter :
          rest.filter (copyFails (fs.writeFile (destOf root (s, d, dm)) b) root) =
            rest.filter (copyFails fs root) :=
        List.filter_congr hcf
      have hfilter2 :
          (rest.filter (fun m' =>
              !copyFails (fs.writeFile (destOf root (s, d, dm)) b) root m')) =
            rest.filter (fun m' => !copyFails fs root m') :=
        List.filter_congr (fun m' hm' => by rw [hcf m' hm'])
      have hmap :
          (rest.filter (copyFails fs root)).map
              (loopErrMsg (fs.writeFile (destOf root (s, d, dm)) b) root) =
            (rest.filter (copyFails fs root)).map (loopErrMsg fs root) :=
        List.map_congr_left (fun m' hm' =>
          loopErrMsg_writeFile (hdm m' (List.mem_of_mem_filter hm')))
      refine ⟨fsF, ?_, by rw [hbw]; rfl, by rw [hbm]; rfl, ?_⟩
      · simp only [syncWriteLoop, hs, hloop]
        rw [hfilter, hfilter2, hmap]
        simp [List.filter_cons, hf, loopWarnMsg]
      · intro p hp
        have h1 := hun p (fun m' hm' => hp m' (List.mem_cons_of_mem _ hm'))
        rw [h1, lookupFile_writeFile]
        have : destOf root (s, d, dm) ≠ p :=
          fun h => hp (s, d, dm) (List.mem_cons_self _ _) h.symm
        simp [this]

/-- Like `syncWriteLoop_partition`, with pairwise distinct destination
paths: every successfully copied record leaves its destination holding
exactly the source bytes read at the start of the loop. -/
theorem syncWriteLoop_content (root : String)
    (L : List (String × String × String)) :
    ∀ fs : FS,
    (∀ m ∈ L, lookupKey fs.badMkdir (parentPath (destOf root m)) = none) →
    (∀ m ∈ L, ∀ m2 ∈ L, destOf root m ≠ m2.1) →
    (L.map (destOf root)).Nodup →
    ∃ fsF,
      syncWriteLoop fs root L = .ok
        ((L.filter (copyFails fs root)).map (loopErrMsg fs root),
         (L.filter (fun m => !copyFails fs root m)).map loopWarnMsg, fsF) ∧
      fsF.badWrite = fs.badWrite ∧ fsF.badMkdir = fs.badMkdir ∧
      (∀ p, (∀ m ∈ L, p ≠ destOf root m) →
        fsF.lookupFile p = fs.lookupFile p) ∧
      (∀ m ∈ L, ∀ b, fs.readBytes m.1 = some b →
        copyFails fs root m = false →
        fsF.lookupFile (destOf root m) = some (.readable b)) := by
  induction L with
  | nil =>
    intro fs _ _ _
    exact ⟨fs, rfl, rfl, rfl, fun p _ => rfl, fun m hm => absurd hm (by simp)⟩
  | cons m rest ih =>
    intro fs hM hD hND
    obtain ⟨s, d, dm⟩ := m
    have hMm := hM (s, d, dm) (List.mem_cons_self _ _)
    have hMrest : ∀ m' ∈ rest,
        lookupKey fs.badMkdir (parentPath (destOf root m')) = none :=
      fun m' hm' => hM m' (List.mem_cons_of_mem _ hm')
    have hDrest : ∀ m' ∈ rest, ∀ m2 ∈ rest, destOf root m' ≠ m2.1 :=
      fun m' hm' m2 hm2 =>
        hD m' (List.mem_cons_of_mem _ hm') m2 (List.mem_cons_of_mem _ hm2)
    have hNDrest : (rest.map (destOf root)).Nodup := by
      rw [List.map_cons] at hND
      exact (List.nodup_cons.mp hND).2
    have hNDhead : destOf root (s, d, dm) ∉ rest.map (destOf root) := by
      rw [List.map_cons] at hND
      exact (List.nodup_cons.mp hND).1
    rcases sync_file_spec fs root (s, d, dm) hMm with ⟨hf, hs⟩ | ⟨hf, b, hb, hs⟩
    · obtain ⟨fsF, hloop, hbw, hbm, hun, hcontent⟩ := ih fs hMrest hDrest hNDrest
      refine ⟨fsF, ?_, hbw, hbm,
        fun p hp => hun p (fun m' hm' => hp m' (List.mem_cons_of_mem _ hm')), ?_⟩
      · simp only [syncWriteLoop, hs, hloop]
        simp [List.filter_cons, hf]
      · intro m' hm' b' hb' hf'
        rcases List.mem_cons.mp hm' with heq | hmem
        · rw [heq] at hf'
          rw [hf'] at hf
          exact absurd hf (by simp)
        · exact hcontent m' hmem b' hb' hf'
    · have hdm : ∀ m2 ∈ rest, destOf root (s, d, dm) ≠ m2.1 :=
        fun m2 hm2 =>
          hD (s, d, dm) (List.mem_cons_self _ _) m2 (List.mem_cons_of_mem _ hm2)
      have hMrest1 : ∀ m' ∈ rest,
          lookupKey (fs.writeFile (destOf root (s, d, dm)) b).badMkdir
            (parentPath (destOf root m')) = none := by
        intro m' hm'
        rw [badMkdir_writeFile]
        exact hMrest m' hm'
      obtain ⟨fsF, hloop, hbw, hbm, hun, hcontent⟩ :=
        ih (fs.writeFile (destOf root (s, d, dm)) b) hMrest1 hDrest hNDrest
      have hcf : ∀ m' ∈ rest,
          copyFails (fs.writeFile (destOf root (s, d, dm)) b) root m' =
            copyFails fs root m' :=
        fun m' hm' => copyFails_writeFile (hdm m' hm')
      have hfilter :
          rest.filter (copyFails (fs.writeFile (destOf root (s, d, dm)) b) root) =
            rest.filter (copyFails fs root) :=
        List.filter_congr hcf
      have hfilter2 :
          (rest.filter (fun m' =>
              !copyFails (fs.writeFile (destOf root (s, d, dm)) b) root m')) =
            rest.filter (fun m' => !copyFails fs root m') :=
        List.filter_congr (fun m' hm' => by rw [hcf m' hm'])
      have hmap :
          (rest.filter (copyFails fs root)).map
              (loopErrMsg (fs.writeFile (destOf root (s, d, dm)) b) root) =
            (rest.filter (copyFails fs root)).map (loopErrMsg fs root) :=
        List.map_congr_left (fun m' hm' =>
          loopErrMsg_writeFile (hdm m' (List.mem_of_mem_filter hm')))
      refine ⟨fsF, ?_, by rw [hbw]; rfl, by rw [hbm]; rfl, ?_, ?_⟩
      · simp only [syncWriteLoop, hs, hloop]
        rw [hfilter, hfilter2, hmap]
        simp [List.filter_cons, hf, loopWarnMsg]
      · intro p hp
        have h1 := hun p (fun m' hm' => hp m' (List.mem_cons_of_mem _ hm'))
        rw [h1, lookupFile_writeFile]
        have : destOf root (s, d, dm) ≠ p :=
          fun h => hp (s, d, dm) (List.mem_cons_self _ _) h.symm
        simp [this]
      · intro m' hm' b' hb' hf'
        rcases List.mem_cons.mp hm' with heq | hmem
        · subst heq
          have hbb : b' = b := by
            rw [hb'] at hb
            exact Option.some.inj hb
          subst hbb
          have hunfs := hun (destOf root (s, d, dm)) (fun m2 hm2 h2 => by
            exact hNDhead (h2 ▸ List.mem_map_of_mem (destOf root) hm2))
          rw [hunfs, lookupFile_writeFile]
          simp
        · have hb1 : (fs.writeFile (destOf root (s, d, dm)) b).readBytes m'.1 =
              some b' := by
            rw [readBytes_writeFile]
            have : destOf root (s, d, dm) ≠ m'.1 := hdm m' hmem
            simp [this, hb']
          have hf1 : copyFails (fs.writeFile (destOf root (s, d, dm)) b) root m' =
              false := by rw [hcf m' hmem]; exact hf'
          exact hcontent m' hmem b' hb1 hf1

/-! ### Branch lemmas for `sync_files` -/

theorem sync_files_of_write (hash : Bytes → String) (cfg : Config)
    (root : String) (wm : Bool) (srcrepo : String) (fs : FS)
    (hw : wm = true ∨ cfg.mode = "write") :
    sync_files hash cfg root wm srcrepo fs =
      if (collectMismatches hash fs srcrepo root cfg.files).isEmpty then
        .ok ([], [], fs)
      else syncWriteLoop fs root
        (collectMismatches hash fs srcrepo root cfg.files) := by
  unfold sync_files
  rcases hw with h | h
  · subst h
    simp
  · rw [h]
    simp

theorem sync_files_of_check (hash : Bytes → String) (cfg : Config)
    (root : String) (srcrepo : String) (fs : FS)
    (hmode : cfg.mode ≠ "write") :
    sync_files hash cfg root false srcrepo fs =
      .ok ((collectMismatches hash fs srcrepo root cfg.files).map
        (fun m => checkErrMsg m.2.1 m.2.2), [], fs) := by
  unfold sync_files
  have hbeq : (cfg.mode == "write") = false := by
    simp [hmode]
  rw [hbeq]
  simp only [Bool.false_or]
  cases hM : (collectMismatches hash fs srcrepo root cfg.files).isEmpty with
  | true =>
    have : collectMismatches hash fs srcrepo root cfg.files = [] := by
      simpa [List.isEmpty_iff] using hM
    simp [this]
  | false =>
    simp [hM]

theorem collectMismatches_ne_nil (hash : Bytes → String) (fs : FS)
    (srcrepo root : String) (files : List (String × String))
    (h : ∃ sd ∈ files,
      (compare_files hash fs (resolve srcrepo sd.1) sd.2 root).1 = false) :
    collectMismatches hash fs srcrepo root files ≠ [] := by
  obtain ⟨sd, hsd, hc⟩ := h
  intro hnil
  have := List.filterMap_eq_nil_iff.mp hnil sd hsd
  cases hcmp : compare_files hash fs (resolve srcrepo sd.1) sd.2 root with
  | mk fst snd =>
    rw [hcmp] at hc
    simp at hc
    rw [hc] at hcmp
    simp only [hcmp] at this
    exact absurd this (by simp)

/-! ### Claims -/

/-- C1: for every valid configuration run with the write-mode flag
false and `options.mode = check`, when at least one file mapping
compares not-equal, `sync_files` returns the check-mode error lines
(one per mismatch, a non-empty list), an empty warnings list, and the
filesystem completely unchanged. -/
theorem c1_check_mode_reports_and_mutates_nothing
    (hash : Bytes → String) (cfg : Config) (repo_root source_repo : String)
    (fs : FS) (hmode : cfg.mode = "check")
    (hmm : ∃ sd ∈ cfg.files,
      (compare_files hash fs (resolve source_repo sd.1) sd.2 repo_root).1 =
        false) :
    sync_files hash cfg repo_root false source_repo fs =
      .ok ((collectMismatches hash fs source_repo repo_root cfg.files).map
        (fun m => checkErrMsg m.2.1 m.2.2), [], fs) ∧
    (collectMismatches hash fs source_repo repo_root cfg.files).map
        (fun m => checkErrMsg m.2.1 m.2.2) ≠ [] := by
  constructor
  · exact sync_files_of_check hash cfg repo_root source_repo fs
      (by rw [hmode]; decide)
  · have hne := collectMismatches_ne_nil hash fs source_repo repo_root
      cfg.files hmm
    simpa using hne

/-- Witness for C1 at a concrete one-mapping configuration whose
source and destination contents differ. -/
theorem c1_witness :
    sync_files demoHash ⟨"u", "v", [("a", "b")], "check"⟩ "r" false "s"
        ⟨[("s/a", .readable [1]), ("r/b", .readable [2])], [], []⟩ =
      .ok ((collectMismatches demoHash
          ⟨[("s/a", .readable [1]), ("r/b", .readable [2])], [], []⟩
          "s" "r" [("a", "b")]).map
        (fun m => checkErrMsg m.2.1 m.2.2), [],
        ⟨[("s/a", .readable [1]), ("r/b", .readable [2])], [], []⟩) ∧
    (collectMismatches demoHash
          ⟨[("s/a", .readable [1]), ("r/b", .readable [2])], [], []⟩
          "s" "r" [("a", "b")]).map
        (fun m => checkErrMsg m.2.1 m.2.2) ≠ [] :=
  c1_check_mode_reports_and_mutates_nothing demoHash
    ⟨"u", "v", [("a", "b")], "check"⟩ "r" "s"
    ⟨[("s/a", .readable [1]), ("r/b", .readable [2])], [], []⟩
    rfl (by decide)

/-- C9: `sync_files` walks the `files` entries in declaration order; in
check mode the error list is the order-preserving projection
(`filterMap`) of the declared list, and in write mode the error and
warning lists are order-preserving refinements (`filter` + `map`) of
the mismatch list, which itself is the order-preserving projection of
the declared list.  The write-mode half assumes no mkdir failure and
destination paths that alias no source path, so that the loop returns
its lists at all and membership of a record in the failing side is
determined by the starting filesystem. -/
theorem c9_declaration_order_preserved
    (hash : Bytes → String) (cfg : Config) (repo_root source_repo : String)
    (fs : FS)
    (hM : ∀ m ∈ collectMismatches hash fs source_repo repo_root cfg.files,
      lookupKey fs.badMkdir (parentPath (destOf repo_root m)) = none)
    (hD : ∀ m ∈ collectMismatches hash fs source_repo repo_root cfg.files,
      ∀ m2 ∈ collectMismatches hash fs source_repo repo_root cfg.files,
        destOf repo_root m ≠ m2.1) :
    (cfg.mode = "check" →
      sync_files hash cfg repo_root false source_repo fs =
        .ok (cfg.files.filterMap (fun sd =>
          match compare_files hash fs (resolve source_repo sd.1) sd.2
              repo_root with
          | (true, _) => none
          | (false, m) => some (checkErrMsg sd.2 (m.getD ""))), [], fs)) ∧
    (∀ wm : Bool, wm = true ∨ cfg.mode = "write" →
      ∃ fsF, sync_files hash cfg repo_root wm source_repo fs =
        .ok (((collectMismatches hash fs source_repo repo_root
            cfg.files).filter (copyFails fs repo_root)).map
              (loopErrMsg fs repo_root),
          ((collectMismatches hash fs source_repo repo_root
            cfg.files).filter (fun m => !copyFails fs repo_root m)).map
              loopWarnMsg, fsF)) := by
  constructor
  · intro hmode
    rw [sync_files_of_check hash cfg repo_root source_repo fs
      (by rw [hmode]; decide)]
    rw [show (collectMismatches hash fs source_repo repo_root
        cfg.files).map (fun m => checkErrMsg m.2.1 m.2.2) =
      cfg.files.filterMap (fun sd =>
        match compare_files hash fs (resolve source_repo sd.1) sd.2
            repo_root with
        | (true, _) => none
        | (false, m) => some (checkErrMsg sd.2 (m.getD ""))) from ?_]
    unfold collectMismatches
    rw [List.map_filterMap]
    refine List.filterMap_congr (fun sd _ => ?_)
    cases hc : compare_files hash fs (resolve source_repo sd.1) sd.2
        repo_root with
    | mk fst snd =>
      cases fst <;> simp [hc]
  · intro wm hw
    rw [sync_files_of_write hash cfg repo_root wm source_repo fs hw]
    cases hE : (collectMismatches hash fs source_repo repo_root
        cfg.files).isEmpty with
    | true =>
      have hnil : collectMismatches hash fs source_repo repo_root
          cfg.files = [] := by simpa [List.isEmpty_iff] using hE
      refine ⟨fs, ?_⟩
      simp [hnil]
    | false =>
      obtain ⟨fsF, hloop, _, _, _⟩ :=
        syncWriteLoop_partition repo_root
          (collectMismatches hash fs source_repo repo_root cfg.files)
          fs hM hD
      exact ⟨fsF, by simp [hE, hloop]⟩

/-- Witness for C9: a two-mapping configuration, one mismatching and
one equal; both run modes produce the canonical ordered lists. -/
theorem c9_witness :
    (sync_files demoHash ⟨"u", "v", [("a", "b"), ("c", "d")], "check"⟩
        "r" false "s"
        ⟨[("s/a", .readable [1]), ("s/c", .readable [3]),
          ("r/b", .readable [2]), ("r/d", .readable [3])], [], []⟩ =
      .ok ([("a", "b"), ("c", "d")].filterMap (fun sd =>
        match compare_files demoHash
            ⟨[("s/a", .readable [1]), ("s/c", .readable [3]),
              ("r/b", .readable [2]), ("r/d", .readable [3])], [], []⟩
            (resolve "s" sd.1) sd.2 "r" with
        | (true, _) => none
        | (false, m) => some (checkErrMsg sd.2 (m.getD ""))), [],
        ⟨[("s/a", .readable [1]), ("s/c", .readable [3]),
          ("r/b", .readable [2]), ("r/d", .readable [3])], [], []⟩)) ∧
    (∃ fsF, sync_files demoHash ⟨"u", "v", [("a", "b"), ("c", "d")], "check"⟩
        "r" true "s"
        ⟨[("s/a", .readable [1]), ("s/c", .readable [3]),
          ("r/b", .readable [2]), ("r/d", .readable [3])], [], []⟩ =
      .ok (((collectMismatches demoHash
          ⟨[("s/a", .readable [1]), ("s/c", .readable [3]),
            ("r/b", .readable [2]), ("r/d", .readable [3])], [], []⟩
          "s" "r" [("a", "b"), ("c", "d")]).filter
            (copyFails
              ⟨[("s/a", .readable [1]), ("s/c", .readable [3]),
                ("r/b", .readable [2]), ("r/d", .readable [3])], [], []⟩
              "r")).map
            (loopErrMsg
              ⟨[("s/a", .readable [1]), ("s/c", .readable [3]),
                ("r/b", .readable [2]), ("r/d", .readable [3])], [], []⟩
              "r"),
        ((collectMismatches demoHash
          ⟨[("s/a", .readable [1]), ("s/c", .readable [3]),
            ("r/b", .readable [2]), ("r/d", .readable [3])], [], []⟩
          "s" "r" [("a", "b"), ("c", "d")]).filter
            (fun m => !copyFails
              ⟨[("s/a", .readable [1]), ("s/c", .readable [3]),
                ("r/b", .readable [2]), ("r/d", .readable [3])], [], []⟩
              "r" m)).map loopWarnMsg, fsF)) := by
  have h := c9_declaration_order_preserved demoHash
    ⟨"u", "v", [("a", "b"), ("c", "d")], "check"⟩ "r" "s"
    ⟨[("s/a", .readable [1]), ("s/c", .readable [3]),
      ("r/b", .readable [2]), ("r/d", .readable [3])], [], []⟩
    (by decide) (by decide)
  exact ⟨h.1 rfl, h.2 true (Or.inl rfl)⟩

/-! ### Structure of the mismatch list -/

theorem mem_collectMismatches {hash : Bytes → String} {fs : FS}
    {srcrepo root : String} {files : List (String × String)}
    {m : String × String × String} :
    m ∈ collectMismatches hash fs srcrepo root files ↔
    ∃ sd ∈ files,
      (compare_files hash fs (resolve srcrepo sd.1) sd.2 root).1 = false ∧
      m = (resolve srcrepo sd.1, sd.2,
        (compare_files hash fs (resolve srcrepo sd.1) sd.2 root).2.getD "") := by
  unfold collectMismatches
  rw [List.mem_filterMap]
  constructor
  · rintro ⟨sd, hsd, hf⟩
    refine ⟨sd, hsd, ?_⟩
    simp only at hf
    cases hc : compare_files hash fs (resolve srcrepo sd.1) sd.2 root with
    | mk fst snd =>
      rw [hc] at hf
      cases fst with
      | true => exact absurd hf (by simp)
      | false =>
        simp only at hf
        exact ⟨rfl, (Option.some.inj hf).symm⟩
  · rintro ⟨sd, hsd, hfalse, hm⟩
    refine ⟨sd, hsd, ?_⟩
    cases hc : compare_files hash fs (resolve srcrepo sd.1) sd.2 root with
    | mk fst snd =>
      rw [hc] at hfalse
      simp only at hfalse
      subst hfalse
      rw [hc] at hm
      simp only at hm
      simp only [hc]
      rw [hm]

theorem filterMap_sublist_map {α β : Type} (f : α → Option β) (g : α → β)
    (l : List α) (h : ∀ a, f a = none ∨ f a = some (g a)) :
    List.Sublist (l.filterMap f) (l.map g) := by
  induction l with
  | nil => simp
  | cons a t ih =>
    rcases h a with ha | ha
    · rw [List.filterMap_cons, ha, List.map_cons]
      exact ih.cons (g a)
    · rw [List.filterMap_cons, ha, List.map_cons]
      exact ih.cons₂ (g a)

/-- The destinations of the mismatch list form a sublist of the
destinations declared in `files`, so distinct declared destinations
give distinct mismatch destinations. -/
theorem collectMismatches_dest_sublist (hash : Bytes → String) (fs : FS)
    (srcrepo root : String) (files : List (String × String)) :
    List.Sublist
      ((collectMismatches hash fs srcrepo root files).map (destOf root))
      (files.map (fun sd => resolve root sd.2)) := by
  unfold collectMismatches
  rw [List.map_filterMap]
  refine filterMap_sublist_map _ _ _ (fun sd => ?_)
  cases hc : compare_files hash fs (resolve srcrepo sd.1) sd.2 root with
  | mk fst snd =>
    cases fst with
    | true =>
      left
      simp only [hc]
      rfl
    | false =>
      right
      simp only [hc]
      rfl

/-- C2 counterexample: a valid write-mode configuration with two
mismatched mappings sharing one destination.  Every copy succeeds and
one warning is emitted per file, but the first mapping's destination
digest after the run is the second source's digest, not its own: the
claim's universally quantified copy clause fails. -/
theorem c2_counterexample :
    sync_files demoHash ⟨"u", "v", [("a", "d"), ("b", "d")], "write"⟩
        "r" false "s"
        ⟨[("s/a", .readable [1]), ("s/b", .readable [2]),
          ("r/d", .readable [3])], [], []⟩ =
      .ok ([], [syncedMsg "d" (hashMismatchMsg "d"),
          syncedMsg "d" (hashMismatchMsg "d")],
        ⟨[("r/d", .readable [2]), ("r/d", .readable [1]),
          ("s/a", .readable [1]), ("s/b", .readable [2]),
          ("r/d", .readable [3])], [], []⟩) ∧
    compute_file_hash demoHash
        ⟨[("r/d", .readable [2]), ("r/d", .readable [1]),
          ("s/a", .readable [1]), ("s/b", .readable [2]),
          ("r/d", .readable [3])], [], []⟩ (resolve "r" "d") =
      .ok (demoHash [2]) ∧
    compute_file_hash demoHash
        ⟨[("r/d", .readable [2]), ("r/d", .readable [1]),
          ("s/a", .readable [1]), ("s/b", .readable [2]),
          ("r/d", .readable [3])], [], []⟩ (resolve "s" "a") =
      .ok (demoHash [1]) ∧
    demoHash [2] ≠ demoHash [1] :=
  ⟨rfl, rfl, rfl, by decide⟩

/-- C2 (amended): under an effective write decision with at least one
mismatch, when the mismatched mappings have pairwise distinct
destination paths, no destination aliases a source path, no mkdir step
fails, and every mismatched copy succeeds, `sync_files` returns no
errors, exactly one `Synced` warning per mismatch in order, and leaves
every mismatched destination holding its source bytes, so the post-copy
destination digest equals the source digest. -/
theorem c2_write_mode_copies_all_mismatches
    (hash : Bytes → String) (cfg : Config) (repo_root source_repo : String)
    (fs : FS) (wm : Bool)
    (hw : wm = true ∨ cfg.mode = "write")
    (hmm : ∃ sd ∈ cfg.files,
      (compare_files hash fs (resolve source_repo sd.1) sd.2 repo_root).1 =
        false)
    (hM : ∀ m ∈ collectMismatches hash fs source_repo repo_root cfg.files,
      lookupKey fs.badMkdir (parentPath (destOf repo_root m)) = none)
    (hD : ∀ m ∈ collectMismatches hash fs source_repo repo_root cfg.files,
      ∀ m2 ∈ collectMismatches hash fs source_repo repo_root cfg.files,
        destOf repo_root m ≠ m2.1)
    (hND : ((collectMismatches hash fs source_repo repo_root cfg.files).map
      (destOf repo_root)).Nodup)
    (hok : ∀ m ∈ collectMismatches hash fs source_repo repo_root cfg.files,
      copyFails fs repo_root m = false) :
    ∃ fsF, sync_files hash cfg repo_root wm source_repo fs =
      .ok ([], (collectMismatches hash fs source_repo repo_root
        cfg.files).map loopWarnMsg, fsF) ∧
    (collectMismatches hash fs source_repo repo_root cfg.files).map
      loopWarnMsg ≠ [] ∧
    ∀ m ∈ collectMismatches hash fs source_repo repo_root cfg.files,
      ∃ b, fs.readBytes m.1 = some b ∧
        fsF.lookupFile (destOf repo_root m) = some (.readable b) ∧
        compute_file_hash hash fsF (destOf repo_root m) = .ok (hash b) ∧
        compute_file_hash hash fsF m.1 = .ok (hash b) := by
  have hne := collectMismatches_ne_nil hash fs source_repo repo_root
    cfg.files hmm
  obtain ⟨fsF, hloop, hbw, hbm, hun, hcontent⟩ :=
    syncWriteLoop_content repo_root
      (collectMismatches hash fs source_repo repo_root cfg.files)
      fs hM hD hND
  refine ⟨fsF, ?_, ?_, ?_⟩
  · rw [sync_files_of_write hash cfg repo_root wm source_repo fs hw]
    have hE : (collectMismatches hash fs source_repo repo_root
        cfg.files).isEmpty = false := by
      cases hE : (collectMismatches hash fs source_repo repo_root
          cfg.files).isEmpty
      · rfl
      · exact absurd (by simpa [List.isEmpty_iff] using hE) hne
    rw [if_neg (by simp [hE]), hloop]
    rw [List.filter_eq_nil_iff.mpr (fun m hm => by simp [hok m hm]),
      List.filter_eq_self.mpr (fun m hm => by simp [hok m hm])]
    simp
  · simpa using hne
  · intro m hm
    have hfb : copyFails fs repo_root m = false := hok m hm
    have hsome : (fs.readBytes m.1).isSome = true := by
      by_contra hns
      simp only [copyFails, Bool.or_eq_false_iff] at hfb
      rw [Bool.not_eq_true, Option.not_isSome] at hns
      simp [Option.isNone_iff_eq_none.mp hns] at hfb
    obtain ⟨b, hb⟩ := Option.isSome_iff_exists.mp hsome
    have hdest := hcontent m hm b hb hfb
    have hsrc_untouched : fsF.lookupFile m.1 = fs.lookupFile m.1 :=
      hun m.1 (fun m2 hm2 h2 => hD m2 hm2 m hm h2.symm)
    have hsrc_node : fs.lookupFile m.1 = some (.readable b) := by
      unfold FS.readBytes at hb
      cases hl : fs.lookupFile m.1 with
      | none => rw [hl] at hb; exact absurd hb (by simp)
      | some node =>
        cases node with
        | readable c => rw [hl] at hb; simp at hb; rw [hb]
        | unreadable e => rw [hl] at hb; exact absurd hb (by simp)
    refine ⟨b, hb, hdest, ?_, ?_⟩
    · unfold compute_file_hash
      rw [hdest]
    · unfold compute_file_hash
      rw [hsrc_untouched, hsrc_node]

/-- Witness for C2 (amended) at a one-mapping configuration. -/
theorem c2_witness :
    ∃ fsF, sync_files demoHash ⟨"u", "v", [("a", "b")], "write"⟩
        "r" false "s"
        ⟨[("s/a", .readable [1]), ("r/b", .readable [2])], [], []⟩ =
      .ok ([], (collectMismatches demoHash
        ⟨[("s/a", .readable [1]), ("r/b", .readable [2])], [], []⟩
        "s" "r" [("a", "b")]).map loopWarnMsg, fsF) ∧
    (collectMismatches demoHash
        ⟨[("s/a", .readable [1]), ("r/b", .readable [2])], [], []⟩
        "s" "r" [("a", "b")]).map loopWarnMsg ≠ [] ∧
    ∀ m ∈ collectMismatches demoHash
        ⟨[("s/a", .readable [1]), ("r/b", .readable [2])], [], []⟩
        "s" "r" [("a", "b")],
      ∃ b, FS.readBytes
          ⟨[("s/a", .readable [1]), ("r/b", .readable [2])], [], []⟩ m.1 =
            some b ∧
        fsF.lookupFile (destOf "r" m) = some (.readable b) ∧
        compute_file_hash demoHash fsF (destOf "r" m) = .ok (demoHash b) ∧
        compute_file_hash demoHash fsF m.1 = .ok (demoHash b) :=
  c2_write_mode_copies_all_mismatches demoHash
    ⟨"u", "v", [("a", "b")], "write"⟩ "r" "s"
    ⟨[("s/a", .readable [1]), ("r/b", .readable [2])], [], []⟩ false
    (Or.inr rfl) (by decide) (by decide) (by decide) (by decide) (by decide)

theorem lookupFile_eq_readable_of_readBytes {fs : FS} {p : String}
    {b : Bytes} (h : fs.readBytes p = some b) :
    fs.lookupFile p = some (.readable b) := by
  unfold FS.readBytes at h
  cases hl : fs.lookupFile p with
  | none => rw [hl] at h; exact absurd h (by simp)
  | some node =>
    cases node with
    | readable c => rw [hl] at h; simp at h; rw [h]
    | unreadable e => rw [hl] at h; exact absurd h (by simp)

theorem compare_files_true_of_readable (hash : Bytes → String) {fs : FS}
    {src d root : String} {b : Bytes}
    (hs : fs.lookupFile src = some (.readable b))
    (hd : fs.lookupFile (resolve root d) = some (.readable b)) :
    compare_files hash fs src d root = (true, none) := by
  simp [compare_files, FS.pathExists, compute_file_hash, hs, hd]

/-- C7 counterexample: two mappings share one destination.  The first
write run succeeds completely (one mismatch, one successful copy), yet
the immediately following run against the unchanged source finds the
other mapping mismatched again and emits a warning: the claimed
idempotence fails for this valid configuration. -/
theorem c7_counterexample :
    sync_files demoHash ⟨"u", "v", [("a", "d"), ("b", "d")], "write"⟩
        "r" false "s"
        ⟨[("s/a", .readable [1]), ("s/b", .readable [2]),
          ("r/d", .readable [1])], [], []⟩ =
      .ok ([], [syncedMsg "d" (hashMismatchMsg "d")],
        ⟨[("r/d", .readable [2]), ("s/a", .readable [1]),
          ("s/b", .readable [2]), ("r/d", .readable [1])], [], []⟩) ∧
    sync_files demoHash ⟨"u", "v", [("a", "d"), ("b", "d")], "write"⟩
        "r" false "s"
        ⟨[("r/d", .readable [2]), ("s/a", .readable [1]),
          ("s/b", .readable [2]), ("r/d", .readable [1])], [], []⟩ =
      .ok ([], [syncedMsg "d" (hashMismatchMsg "d")],
        ⟨[("r/d", .readable [1]), ("r/d", .readable [2]),
          ("s/a", .readable [1]), ("s/b", .readable [2]),
          ("r/d", .readable [1])], [], []⟩) ∧
    [syncedMsg "d" (hashMismatchMsg "d")] ≠ ([] : List String) :=
  ⟨rfl, rfl, by decide⟩

/-- C7 (amended): when the declared destination paths are pairwise
distinct and alias no source path, a write run in which every
mismatched copy succeeds is idempotent: the second run against the
unchanged source finds no mismatch and returns empty errors and empty
warnings. -/
theorem c7_write_sync_idempotent
    (hash : Bytes → String) (cfg : Config) (repo_root source_repo : String)
    (fs : FS) (wm : Bool)
    (hw : wm = true ∨ cfg.mode = "write")
    (hD2 : ∀ sd ∈ cfg.files, ∀ sd2 ∈ cfg.files,
      resolve repo_root sd.2 ≠ resolve source_repo sd2.1)
    (hND2 : (cfg.files.map (fun sd => resolve repo_root sd.2)).Nodup)
    (hM : ∀ m ∈ collectMismatches hash fs source_repo repo_root cfg.files,
      lookupKey fs.badMkdir (parentPath (destOf repo_root m)) = none)
    (hok : ∀ m ∈ collectMismatches hash fs source_repo repo_root cfg.files,
      copyFails fs repo_root m = false) :
    ∃ fsF, sync_files hash cfg repo_root wm source_repo fs =
      .ok ([], (collectMismatches hash fs source_repo repo_root
        cfg.files).map loopWarnMsg, fsF) ∧
    sync_files hash cfg repo_root wm source_repo fsF =
      .ok ([], [], fsF) := by
  have hD : ∀ m ∈ collectMismatches hash fs source_repo repo_root cfg.files,
      ∀ m2 ∈ collectMismatches hash fs source_repo repo_root cfg.files,
        destOf repo_root m ≠ m2.1 := by
    intro m hm m2 hm2
    obtain ⟨sd, hsd, _, hme⟩ := mem_collectMismatches.mp hm
    obtain ⟨sd2, hsd2, _, hme2⟩ := mem_collectMismatches.mp hm2
    rw [hme, hme2]
    exact hD2 sd hsd sd2 hsd2
  have hND : ((collectMismatches hash fs source_repo repo_root
      cfg.files).map (destOf repo_root)).Nodup :=
    hND2.sublist (collectMismatches_dest_sublist hash fs source_repo
      repo_root cfg.files)
  obtain ⟨fsF, hloop, hbw, hbm, hun, hcontent⟩ :=
    syncWriteLoop_content repo_root
      (collectMismatches hash fs source_repo repo_root cfg.files)
      fs hM hD hND
  have hsrc_untouched : ∀ sd ∈ cfg.files,
      fsF.lookupFile (resolve source_repo sd.1) =
        fs.lookupFile (resolve source_repo sd.1) := by
    intro sd hsd
    refine hun (resolve source_repo sd.1) (fun m' hm' h' => ?_)
    obtain ⟨sd2, hsd2, _, hme2⟩ := mem_collectMismatches.mp hm'
    rw [hme2] at h'
    exact hD2 sd2 hsd2 sd hsd h'.symm
  have hsecond : collectMismatches hash fsF source_repo repo_root
      cfg.files = [] := by
    refine List.filterMap_eq_nil_iff.mpr (fun sd hsd => ?_)
    simp only
    cases hc : compare_files hash fs (resolve source_repo sd.1) sd.2
        repo_root with
    | mk fst snd =>
      cases fst with
      | true =>
        have hdest_untouched :
            fsF.lookupFile (resolve repo_root sd.2) =
              fs.lookupFile (resolve repo_root sd.2) := by
          refine hun (resolve repo_root sd.2) (fun m' hm' h' => ?_)
          obtain ⟨sd2, hsd2, hf2, hme2⟩ := mem_collectMismatches.mp hm'
          rw [hme2] at h'
          simp only [destOf] at h'
          have hsdeq : sd = sd2 :=
            List.inj_on_of_nodup_map hND2 hsd hsd2 h'
          rw [← hsdeq] at hf2
          rw [hc] at hf2
          exact absurd hf2 (by simp)
        have : compare_files hash fsF (resolve source_repo sd.1) sd.2
            repo_root = (true, snd) := by
          rw [compare_files_congr hash (hsrc_untouched sd hsd)
            hdest_untouched, hc]
        rw [this]
      | false =>
        have hmem : (resolve source_repo sd.1, sd.2, snd.getD "") ∈
            collectMismatches hash fs source_repo repo_root cfg.files := by
          refine mem_collectMismatches.mpr ⟨sd, hsd, ?_, ?_⟩
          · rw [hc]
          · rw [hc]
        have hfb := hok _ hmem
        have hsome : (fs.readBytes (resolve source_repo sd.1)).isSome =
            true := by
          by_contra hns
          simp only [copyFails, Bool.or_eq_false_iff] at hfb
          rw [Bool.not_eq_true, Option.not_isSome] at hns
          simp [Option.isNone_iff_eq_none.mp hns] at hfb
        obtain ⟨b, hb⟩ := Option.isSome_iff_exists.mp hsome
        have hdest := hcontent _ hmem b hb hfb
        have hsrcF : fsF.lookupFile (resolve source_repo sd.1) =
            some (.readable b) := by
          rw [hsrc_untouched sd hsd]
          exact lookupFile_eq_readable_of_readBytes hb
        have : compare_files hash fsF (resolve source_repo sd.1) sd.2
            repo_root = (true, none) :=
          compare_files_true_of_readable hash hsrcF hdest
        rw [this]
  refine ⟨fsF, ?_, ?_⟩
  · rw [sync_files_of_write hash cfg repo_root wm source_repo fs hw]
    cases hE : (collectMismatches hash fs source_repo repo_root
        cfg.files).isEmpty with
    | true =>
      have hnil : collectMismatches hash fs source_repo repo_root
          cfg.files = [] := by simpa [List.isEmpty_iff] using hE
      rw [if_pos (by simp [hE])]
      have hfseq : fsF = fs := by
        rw [hnil] at hloop
        simp only [syncWriteLoop, List.filter_nil, List.map_nil] at hloop
        have h2 := Except.ok.inj hloop
        exact (congrArg (fun t => t.2.2) h2).symm
      rw [hnil, hfseq]
      simp
    | false =>
      rw [if_neg (by simp [hE]), hloop]
      rw [List.filter_eq_nil_iff.mpr (fun m hm => by simp [hok m hm]),
        List.filter_eq_self.mpr (fun m hm => by simp [hok m hm])]
      simp
  · rw [sync_files_of_write hash cfg repo_root wm source_repo fsF hw]
    rw [if_pos (by simp [hsecond])]

/-- Witness for C7 (amended) at a one-mapping configuration. -/
theorem c7_witness :
    ∃ fsF, sync_files demoHash ⟨"u", "v", [("a", "b")], "write"⟩
        "r" false "s"
        ⟨[("s/a", .readable [1]), ("r/b", .readable [2])], [], []⟩ =
      .ok ([], (collectMismatches demoHash
        ⟨[("s/a", .readable [1]), ("r/b", .readable [2])], [], []⟩
        "s" "r" [("a", "b")]).map loopWarnMsg, fsF) ∧
    sync_files demoHash ⟨"u", "v", [("a", "b")], "write"⟩ "r" false "s"
        fsF = .ok ([], [], fsF) :=
  c7_write_sync_idempotent demoHash ⟨"u", "v", [("a", "b")], "write"⟩
    "r" "s" ⟨[("s/a", .readable [1]), ("r/b", .readable [2])], [], []⟩
    false (Or.inr rfl) (by decide) (by decide) (by decide) (by decide)

theorem length_filter_partition {α : Type} (p : α → Bool) (l : List α) :
    (l.filter p).length + (l.filter (fun a => !p a)).length = l.length := by
  induction l with
  | nil => rfl
  | cons a t ih =>
    by_cases h : p a <;> simp [List.filter_cons, h] <;> omega

/-- C3 counterexample: two pending mismatches, and creating the first
destination's parent directory fails.  The `mkdir` call sits outside
the `try` block of `sync_file`, so the `OSError` is not converted into
a per-file error: the run aborts with the exception, no error is
appended for the first file, and the second mismatch is never
attempted. -/
theorem c3_counterexample :
    collectMismatches demoHash
        ⟨[("s/a", .readable [1]), ("s/b", .readable [2]),
          ("r/d2", .readable [3])], [], [("r/x", "Permission denied")]⟩
        "s" "r" [("a", "x/d1"), ("b", "d2")] =
      [(resolve "s" "a", "x/d1", dstMissingMsg "x/d1"),
       (resolve "s" "b", "d2", hashMismatchMsg "d2")] ∧
    sync_files demoHash ⟨"u", "v", [("a", "x/d1"), ("b", "d2")], "write"⟩
        "r" false "s"
        ⟨[("s/a", .readable [1]), ("s/b", .readable [2]),
          ("r/d2", .readable [3])], [], [("r/x", "Permission denied")]⟩ =
      .error (.osError "Permission denied") :=
  ⟨by decide, rfl⟩

/-- C3 (amended): in write mode, a failure of the copy step itself
(`shutil.copy2` raising `IOError`/`OSError`) appends exactly one error
for that file and does not prevent the remaining mismatched files from
being attempted — the run returns with every mismatch accounted for by
exactly one error or one warning, in order.  A failure while creating
the destination's parent directories, by contrast, is not caught and
aborts the run (see the counterexample).  Assumes no mkdir failure and
destination paths aliasing no source path. -/
theorem c3_copy_failures_do_not_abort
    (hash : Bytes → String) (cfg : Config) (repo_root source_repo : String)
    (fs : FS) (wm : Bool)
    (hw : wm = true ∨ cfg.mode = "write")
    (hM : ∀ m ∈ collectMismatches hash fs source_repo repo_root cfg.files,
      lookupKey fs.badMkdir (parentPath (destOf repo_root m)) = none)
    (hD : ∀ m ∈ collectMismatches hash fs source_repo repo_root cfg.files,
      ∀ m2 ∈ collectMismatches hash fs source_repo repo_root cfg.files,
        destOf repo_root m ≠ m2.1)
    (hfail : ∃ m ∈ collectMismatches hash fs source_repo repo_root
      cfg.files, copyFails fs repo_root m = true) :
    ∃ fsF errs warns,
      sync_files hash cfg repo_root wm source_repo fs =
        .ok (errs, warns, fsF) ∧
      errs = ((collectMismatches hash fs source_repo repo_root
        cfg.files).filter (copyFails fs repo_root)).map
          (loopErrMsg fs repo_root) ∧
      warns = ((collectMismatches hash fs source_repo repo_root
        cfg.files).filter (fun m => !copyFails fs repo_root m)).map
          loopWarnMsg ∧
      errs ≠ [] ∧
      errs.length + warns.length =
        (collectMismatches hash fs source_repo repo_root cfg.files).length := by
  obtain ⟨m0, hm0, hf0⟩ := hfail
  obtain ⟨fsF, hloop, _, _, _⟩ :=
    syncWriteLoop_partition repo_root
      (collectMismatches hash fs source_repo repo_root cfg.files)
      fs hM hD
  have hne : collectMismatches hash fs source_repo repo_root
      cfg.files ≠ [] := by
    intro h
    rw [h] at hm0
    exact absurd hm0 (by simp)
  have hE : (collectMismatches hash fs source_repo repo_root
      cfg.files).isEmpty = false := by
    cases hE : (collectMismatches hash fs source_repo repo_root
        cfg.files).isEmpty
    · rfl
    · exact absurd (by simpa [List.isEmpty_iff] using hE) hne
  refine ⟨fsF, _, _, ?_, rfl, rfl, ?_, ?_⟩
  · rw [sync_files_of_write hash cfg repo_root wm source_repo fs hw,
      if_neg (by simp [hE]), hloop]
  · have : m0 ∈ (collectMismatches hash fs source_repo repo_root
        cfg.files).filter (copyFails fs repo_root) :=
      List.mem_filter.mpr ⟨hm0, hf0⟩
    intro hnil
    rw [List.map_eq_nil_iff] at hnil
    rw [hnil] at this
    exact absurd this (by simp)
  · rw [List.length_map, List.length_map]
    exact length_filter_partition (copyFails fs repo_root) _

/-- Witness for C3 (amended): one mismatch whose source file is absent
(its copy fails) followed by one that copies cleanly. -/
theorem c3_witness :
    ∃ fsF errs warns,
      sync_files demoHash ⟨"u", "v", [("missing", "b"), ("c", "d")], "write"⟩
        "r" false "s"
        ⟨[("s/c", .readable [3]), ("r/b", .readable [2]),
          ("r/d", .readable [4])], [], []⟩ =
        .ok (errs, warns, fsF) ∧
      errs = ((collectMismatches demoHash
        ⟨[("s/c", .readable [3]), ("r/b", .readable [2]),
          ("r/d", .readable [4])], [], []⟩
        "s" "r" [("missing", "b"), ("c", "d")]).filter
          (copyFails
            ⟨[("s/c", .readable [3]), ("r/b", .readable [2]),
              ("r/d", .readable [4])], [], []⟩ "r")).map
          (loopErrMsg
            ⟨[("s/c", .readable [3]), ("r/b", .readable [2]),
              ("r/d", .readable [4])], [], []⟩ "r") ∧
      warns = ((collectMismatches demoHash
        ⟨[("s/c", .readable [3]), ("r/b", .readable [2]),
          ("r/d", .readable [4])], [], []⟩
        "s" "r" [("missing", "b"), ("c", "d")]).filter
          (fun m => !copyFails
            ⟨[("s/c", .readable [3]), ("r/b", .readable [2]),
              ("r/d", .readable [4])], [], []⟩ "r" m)).map loopWarnMsg ∧
      errs ≠ [] ∧
      errs.length + warns.length =
        (collectMismatches demoHash
          ⟨[("s/c", .readable [3]), ("r/b", .readable [2]),
            ("r/d", .readable [4])], [], []⟩
          "s" "r" [("missing", "b"), ("c", "d")]).length :=
  c3_copy_failures_do_not_abort demoHash
    ⟨"u", "v", [("missing", "b"), ("c", "d")], "write"⟩ "r" "s"
    ⟨[("s/c", .readable [3]), ("r/b", .readable [2]),
      ("r/d", .readable [4])], [], []⟩ false
    (Or.inr rfl) (by decide) (by decide) (by decide)

/-- C10: in write mode, a mismatch whose source file does not exist in
the fetched checkout does not crash the run: given that the pending
mismatch list splits as `M1 ++ m0 :: M2` with exactly `m0` failing (its
source path absent) and every other copy succeeding, `sync_files`
returns, the error list is exactly the one copy-failure message for
`m0` (so `m0` never yields a `Synced` warning), and the warning list
carries every other mismatch — including all of `M2`, the mappings
after the failing one.  Assumes no mkdir failure and destination paths
aliasing no source path. -/
theorem c10_missing_source_copy_fails_gracefully
    (hash : Bytes → String) (cfg : Config) (repo_root source_repo : String)
    (fs : FS) (wm : Bool)
    (hw : wm = true ∨ cfg.mode = "write")
    (hM : ∀ m ∈ collectMismatches hash fs source_repo repo_root cfg.files,
      lookupKey fs.badMkdir (parentPath (destOf repo_root m)) = none)
    (hD : ∀ m ∈ collectMismatches hash fs source_repo repo_root cfg.files,
      ∀ m2 ∈ collectMismatches hash fs source_repo repo_root cfg.files,
        destOf repo_root m ≠ m2.1)
    (M1 M2 : List (String × String × String))
    (m0 : String × String × String)
    (hsplit : collectMismatches hash fs source_repo repo_root cfg.files =
      M1 ++ m0 :: M2)
    (hmissing : fs.lookupFile m0.1 = none)
    (hok1 : ∀ m ∈ M1, copyFails fs repo_root m = false)
    (hok2 : ∀ m ∈ M2, copyFails fs repo_root m = false) :
    ∃ fsF, sync_files hash cfg repo_root wm source_repo fs =
      .ok ([copyFailMsg m0.1 (destOf repo_root m0) (fileNotFoundMsg m0.1)],
        (M1 ++ M2).map loopWarnMsg, fsF) := by
  obtain ⟨fsF, hloop, _, _, _⟩ :=
    syncWriteLoop_partition repo_root
      (collectMismatches hash fs source_repo repo_root cfg.files)
      fs hM hD
  have hf0 : copyFails fs repo_root m0 = true := by
    simp [copyFails, FS.readBytes, hmissing]
  have hne : collectMismatches hash fs source_repo repo_root
      cfg.files ≠ [] := by
    rw [hsplit]
    simp
  have hE : (collectMismatches hash fs source_repo repo_root
      cfg.files).isEmpty = false := by
    cases hE : (collectMismatches hash fs source_repo repo_root
        cfg.files).isEmpty
    · rfl
    · exact absurd (by simpa [List.isEmpty_iff] using hE) hne
  have hfil1 : M1.filter (copyFails fs repo_root) = [] :=
    List.filter_eq_nil_iff.mpr (fun m hm => by simp [hok1 m hm])
  have hfil2 : M2.filter (copyFails fs repo_root) = [] :=
    List.filter_eq_nil_iff.mpr (fun m hm => by simp [hok2 m hm])
  have hfil1n : M1.filter (fun m => !copyFails fs repo_root m) = M1 :=
    List.filter_eq_self.mpr (fun m hm => by simp [hok1 m hm])
  have hfil2n : M2.filter (fun m => !copyFails fs repo_root m) = M2 :=
    List.filter_eq_self.mpr (fun m hm => by simp [hok2 m hm])
  have hmsg : loopErrMsg fs repo_root m0 =
      copyFailMsg m0.1 (destOf repo_root m0) (fileNotFoundMsg m0.1) := by
    simp [loopErrMsg, copyFailText, hmissing]
  refine ⟨fsF, ?_⟩
  rw [sync_files_of_write hash cfg repo_root wm source_repo fs hw,
    if_neg (by simp [hE]), hloop, hsplit]
  simp [List.filter_append, List.filter_cons, hfil1, hfil2, hfil1n,
    hfil2n, hf0, hmsg]

/-- Witness for C10: the failing mapping is first, one healthy mapping
follows and is still synced. -/
theorem c10_witness :
    ∃ fsF,
      sync_files demoHash ⟨"u", "v", [("missing", "b"), ("c", "d")], "write"⟩
        "r" false "s"
        ⟨[("s/c", .readable [3]), ("r/b", .readable [2]),
          ("r/d", .readable [4])], [], []⟩ =
      .ok ([copyFailMsg (resolve "s" "missing") (destOf "r"
            (resolve "s" "missing", "b", srcMissingMsg (resolve "s" "missing")))
            (fileNotFoundMsg (resolve "s" "missing"))],
        ([] ++ [(resolve "s" "c", "d", hashMismatchMsg "d")]).map loopWarnMsg,
        fsF) :=
  c10_missing_source_copy_fails_gracefully demoHash
    ⟨"u", "v", [("missing", "b"), ("c", "d")], "write"⟩ "r" "s"
    ⟨[("s/c", .readable [3]), ("r/b", .readable [2]),
      ("r/d", .readable [4])], [], []⟩ false
    (Or.inr rfl) (by decide) (by decide)
    [] [(resolve "s" "c", "d", hashMismatchMsg "d")]
    (resolve "s" "missing", "b", srcMissingMsg (resolve "s" "missing"))
    (by decide) (by decide) (by decide) (by decide)

/-! ### C4: digest-failure reasons are distinct from inequality reasons -/

theorem readFailMsg_getElem_one (p e : String) :
    (readFailMsg p e).data[1]? = some 'a' := by
  unfold readFailMsg
  rw [String.data_append, String.data_append, String.data_append]
  rw [List.append_assoc, List.append_assoc]
  rw [List.getElem?_append_left (by decide : 1 < "Failed to read file ".data.length)]
  decide

theorem hashMismatchMsg_getElem_one (d : String) :
    (hashMismatchMsg d).data[1]? = some 'i' := by
  unfold hashMismatchMsg
  rw [String.data_append, String.data_append]
  rw [List.append_assoc]
  rw [List.getElem?_append_left (by decide : 1 < "File ".data.length)]
  decide

/-- The message of a digest-computation `FileComparisonError` is never
equal to the plain hash-mismatch reason, whatever the interpolated
paths and OS error text. -/
theorem readFailMsg_ne_hashMismatchMsg (p e d : String) :
    readFailMsg p e ≠ hashMismatchMsg d := by
  intro h
  have h1 := congrArg (fun s : String => s.data[1]?) h
  simp only at h1
  rw [readFailMsg_getElem_one, hashMismatchMsg_getElem_one] at h1
  exact absurd h1 (by decide)

/-- C4: when both files exist but reading one of them for digest
computation raises an `IOError`, `compare_files` returns a not-equal
verdict whose reason is exactly the `FileComparisonError` message
(`Failed to read file ...`), a value distinct from the hash-mismatch
reason produced for ordinary unequal files — the failure is surfaced,
not silently folded into plain inequality. -/
theorem c4_digest_failure_surfaced
    (hash : Bytes → String) (fs : FS) (src d root : String)
    (hd_ex : fs.pathExists (resolve root d) = true) :
    (∀ e, fs.lookupFile src = some (.unreadable e) →
      compare_files hash fs src d root =
        (false, some (readFailMsg src e)) ∧
      ∀ d2, readFailMsg src e ≠ hashMismatchMsg d2) ∧
    (∀ e b, fs.lookupFile src = some (.readable b) →
      fs.lookupFile (resolve root d) = some (.unreadable e) →
      compare_files hash fs src d root =
        (false, some (readFailMsg (resolve root d) e)) ∧
      ∀ d2, readFailMsg (resolve root d) e ≠ hashMismatchMsg d2) := by
  constructor
  · intro e hsrc
    refine ⟨?_, fun d2 => readFailMsg_ne_hashMismatchMsg _ _ _⟩
    obtain ⟨nd, hnd⟩ : ∃ nd, fs.lookupFile (resolve root d) = some nd := by
      unfold FS.pathExists at hd_ex
      exact Option.isSome_iff_exists.mp hd_ex
    simp [compare_files, FS.pathExists, compute_file_hash, hsrc, hnd]
  · intro e b hsrc hdst
    refine ⟨?_, fun d2 => readFailMsg_ne_hashMismatchMsg _ _ _⟩
    simp [compare_files, FS.pathExists, compute_file_hash, hsrc, hdst]

/-- Witness for C4: one pair with an unreadable source, one pair with
an unreadable destination. -/
theorem c4_witness :
    (compare_files demoHash
        ⟨[("s/a", .unreadable "Input output error"),
          ("r/b", .readable [2]), ("s/c", .readable [3]),
          ("r/e", .unreadable "Input output error")], [], []⟩
        "s/a" "b" "r" =
      (false, some (readFailMsg "s/a" "Input output error")) ∧
      ∀ d2, readFailMsg "s/a" "Input output error" ≠ hashMismatchMsg d2) ∧
    (compare_files demoHash
        ⟨[("s/a", .unreadable "Input output error"),
          ("r/b", .readable [2]), ("s/c", .readable [3]),
          ("r/e", .unreadable "Input output error")], [], []⟩
        "s/c" "e" "r" =
      (false, some (readFailMsg (resolve "r" "e") "Input output error")) ∧
      ∀ d2, readFailMsg (resolve "r" "e") "Input output error" ≠
        hashMismatchMsg d2) :=
  ⟨(c4_digest_failure_surfaced demoHash
      ⟨[("s/a", .unreadable "Input output error"),
        ("r/b", .readable [2]), ("s/c", .readable [3]),
        ("r/e", .unreadable "Input output error")], [], []⟩
      "s/a" "b" "r" (by decide)).1 "Input output error" (by decide),
   (c4_digest_failure_surfaced demoHash
      ⟨[("s/a", .unreadable "Input output error"),
        ("r/b", .readable [2]), ("s/c", .readable [3]),
        ("r/e", .unreadable "Input output error")], [], []⟩
      "s/c" "e" "r" (by decide)).2 "Input output error" [3]
      (by decide) (by decide)⟩

/-! ### C6: the LICENSE scenario -/

/-- C6 counterexample: with a differing `LICENSE`, check mode does
return a single error for the file and exit 1, but the error string is
the interpolated hash-mismatch reason, not `LICENSE: content differs`
as the claim states (and the write-mode warning is likewise not
`Synced LICENSE: content differs`). -/
theorem c6_counterexample :
    sync_files demoHash ⟨"u", "v", [("LICENSE", "LICENSE")], "check"⟩
        "repo" false "tmp/source_repo"
        ⟨[("tmp/source_repo/LICENSE", .readable [1]),
          ("repo/LICENSE", .readable [2])], [], []⟩ =
      .ok (["LICENSE: File LICENSE differs from source (hash mismatch)"],
        [],
        ⟨[("tmp/source_repo/LICENSE", .readable [1]),
          ("repo/LICENSE", .readable [2])], [], []⟩) ∧
    ("LICENSE: File LICENSE differs from source (hash mismatch)" : String) ≠
      "LICENSE: content differs" ∧
    ("Synced LICENSE: File LICENSE differs from source (hash mismatch)" :
      String) ≠ "Synced LICENSE: content differs" :=
  ⟨rfl, by decide, by decide⟩

/-- C6 (amended): for the single mapping `LICENSE → LICENSE` with
differing digests, check mode returns exactly one error
`LICENSE: File LICENSE differs from source (hash mismatch)` and the
CLI exits 1; write mode copies the source bytes onto the destination,
returns exactly the warning
`Synced LICENSE: File LICENSE differs from source (hash mismatch)`,
and the CLI exits 0. -/
theorem c6_license_scenario
    (hash : Bytes → String) (repo ref repo_root source_repo : String)
    (fs : FS) (bS bD : Bytes)
    (hsrc : fs.lookupFile (resolve source_repo "LICENSE") =
      some (.readable bS))
    (hdst : fs.lookupFile (resolve repo_root "LICENSE") =
      some (.readable bD))
    (hne : hash bS ≠ hash bD)
    (hbw : lookupKey fs.badWrite (resolve repo_root "LICENSE") = none)
    (hbm : lookupKey fs.badMkdir
      (parentPath (resolve repo_root "LICENSE")) = none) :
    (sync_files hash ⟨repo, ref, [("LICENSE", "LICENSE")], "check"⟩
        repo_root false source_repo fs =
      .ok ([checkErrMsg "LICENSE" (hashMismatchMsg "LICENSE")], [], fs) ∧
     cli_exit_after_sync (sync_files hash
        ⟨repo, ref, [("LICENSE", "LICENSE")], "check"⟩
        repo_root false source_repo fs) = 1) ∧
    (sync_files hash ⟨repo, ref, [("LICENSE", "LICENSE")], "check"⟩
        repo_root true source_repo fs =
      .ok ([], [syncedMsg "LICENSE" (hashMismatchMsg "LICENSE")],
        fs.writeFile (resolve repo_root "LICENSE") bS) ∧
     (fs.writeFile (resolve repo_root "LICENSE") bS).readBytes
        (resolve repo_root "LICENSE") = some bS ∧
     cli_exit_after_sync (sync_files hash
        ⟨repo, ref, [("LICENSE", "LICENSE")], "check"⟩
        repo_root true source_repo fs) = 0) := by
  have hcmp : compare_files hash fs (resolve source_repo "LICENSE")
      "LICENSE" repo_root = (false, some (hashMismatchMsg "LICENSE")) := by
    simp [compare_files, FS.pathExists, compute_file_hash, hsrc, hdst, hne]
  have hcol : collectMismatches hash fs source_repo repo_root
      [("LICENSE", "LICENSE")] =
      [(resolve source_repo "LICENSE", "LICENSE",
        hashMismatchMsg "LICENSE")] := by
    simp [collectMismatches, hcmp]
  have hcheck : sync_files hash
      ⟨repo, ref, [("LICENSE", "LICENSE")], "check"⟩
      repo_root false source_repo fs =
      .ok ([checkErrMsg "LICENSE" (hashMismatchMsg "LICENSE")], [], fs) := by
    rw [sync_files_of_check hash
      ⟨repo, ref, [("LICENSE", "LICENSE")], "check"⟩ repo_root source_repo
      fs (show ("check" : String) ≠ "write" by decide)]
    simp only [hcol, List.map_cons, List.map_nil]
  have hwrite : sync_files hash
      ⟨repo, ref, [("LICENSE", "LICENSE")], "check"⟩
      repo_root true source_repo fs =
      .ok ([], [syncedMsg "LICENSE" (hashMismatchMsg "LICENSE")],
        fs.writeFile (resolve repo_root "LICENSE") bS) := by
    rw [sync_files_of_write hash _ repo_root true source_repo fs
      (Or.inl rfl)]
    rw [if_neg (by simp [hcol])]
    rw [hcol]
    simp [syncWriteLoop, sync_file, hbm, hsrc, hbw]
  refine ⟨⟨hcheck, ?_⟩, hwrite, ?_, ?_⟩
  · rw [hcheck]
    simp [cli_exit_after_sync]
  · rw [readBytes_writeFile]
    simp
  · rw [hwrite]
    simp [cli_exit_after_sync]

/-- Witness for C6 (amended) at concrete contents. -/
theorem c6_witness :
    (sync_files demoHash ⟨"u", "v", [("LICENSE", "LICENSE")], "check"⟩
        "repo" false "tmp/source_repo"
        ⟨[("tmp/source_repo/LICENSE", .readable [1]),
          ("repo/LICENSE", .readable [2])], [], []⟩ =
      .ok ([checkErrMsg "LICENSE" (hashMismatchMsg "LICENSE")], [],
        ⟨[("tmp/source_repo/LICENSE", .readable [1]),
          ("repo/LICENSE", .readable [2])], [], []⟩) ∧
     cli_exit_after_sync (sync_files demoHash
        ⟨"u", "v", [("LICENSE", "LICENSE")], "check"⟩
        "repo" false "tmp/source_repo"
        ⟨[("tmp/source_repo/LICENSE", .readable [1]),
          ("repo/LICENSE", .readable [2])], [], []⟩) = 1) ∧
    (sync_files demoHash ⟨"u", "v", [("LICENSE", "LICENSE")], "check"⟩
        "repo" true "tmp/source_repo"
        ⟨[("tmp/source_repo/LICENSE", .readable [1]),
          ("repo/LICENSE", .readable [2])], [], []⟩ =
      .ok ([], [syncedMsg "LICENSE" (hashMismatchMsg "LICENSE")],
        FS.writeFile
          ⟨[("tmp/source_repo/LICENSE", .readable [1]),
            ("repo/LICENSE", .readable [2])], [], []⟩
          (resolve "repo" "LICENSE") [1]) ∧
     (FS.writeFile
          ⟨[("tmp/source_repo/LICENSE", .readable [1]),
            ("repo/LICENSE", .readable [2])], [], []⟩
          (resolve "repo" "LICENSE") [1]).readBytes
        (resolve "repo" "LICENSE") = some [1] ∧
     cli_exit_after_sync (sync_files demoHash
        ⟨"u", "v", [("LICENSE", "LICENSE")], "check"⟩
        "repo" true "tmp/source_repo"
        ⟨[("tmp/source_repo/LICENSE", .readable [1]),
          ("repo/LICENSE", .readable [2])], [], []⟩) = 0) :=
  c6_license_scenario demoHash "u" "v" "repo" "tmp/source_repo"
    ⟨[("tmp/source_repo/LICENSE", .readable [1]),
      ("repo/LICENSE", .readable [2])], [], []⟩ [1] [2]
    (by decide) (by decide) (by decide) (by decide) (by decide)

theorem lookupKey_tableSet_self (kvs : List (String × Toml)) (k : String)
    (v : Toml) : lookupKey (tableSet kvs k v) k = some v := by
  induction kvs with
  | nil => simp [tableSet, lookupKey]
  | cons kv rest ih =>
    obtain ⟨k0, v0⟩ := kv
    by_cases h : k0 = k
    · simp [tableSet, lookupKey, h]
    · simp [tableSet, lookupKey, h, ih]

theorem isSome_of_isNone_false {α : Type} {o : Option α}
    (h : o.isNone = false) : o.isSome = true := by
  cases o with
  | none => simp at h
  | some v => rfl

theorem checkFileEntry_eq_none_iff (i : Nat) (e : Toml) :
    checkFileEntry i e = none ↔ fileEntryOk e = true := by
  cases e with
  | table kvs =>
    simp only [checkFileEntry, fileEntryOk]
    cases hsrc : (lookupKey kvs "src").isNone with
    | true =>
      simp [hsrc, Option.isNone_iff_eq_none.mp hsrc]
    | false =>
      cases hdst : (lookupKey kvs "dst").isNone with
      | true => simp [hsrc, hdst, Option.isNone_iff_eq_none.mp hdst]
      | false =>
        simp only [hsrc, hdst, Bool.false_eq_true, if_false]
        constructor
        · intro _
          rw [isSome_of_isNone_false hsrc, isSome_of_isNone_false hdst]
          rfl
        · intro _
          trivial
  | str s => simp [checkFileEntry, fileEntryOk]
  | int n => simp [checkFileEntry, fileEntryOk]
  | boolean b => simp [checkFileEntry, fileEntryOk]
  | arr xs => simp [checkFileEntry, fileEntryOk]

theorem checkFileEntries_eq_none_iff :
    ∀ (l : List Toml) (i : Nat),
    checkFileEntries i l = none ↔ l.all fileEntryOk = true := by
  intro l
  induction l with
  | nil => intro i; simp [checkFileEntries]
  | cons e rest ih =>
    intro i
    simp only [checkFileEntries, List.all_cons, Bool.and_eq_true]
    cases hc : checkFileEntry i e with
    | some m =>
      simp only
      constructor
      · intro h
        exact absurd h (by simp)
      · rintro ⟨h1, _⟩
        rw [← checkFileEntry_eq_none_iff i e] at h1
        rw [hc] at h1
        exact absurd h1 (by simp)
    | none =>
      simp only
      rw [ih (i + 1)]
      have := (checkFileEntry_eq_none_iff i e).mp hc
      simp [this]

/-- C5 counterexample: a configuration whose `source.repo` and
`source.ref` are both the empty string is accepted by the loader (the
code only tests key presence), with the default `options.mode = check`
injected — it is not rejected with a `ConfigError` as the claim
states. -/
theorem c5_counterexample :
    load_config_validate none
      (.table [("source", .table [("repo", .str ""), ("ref", .str "")]),
        ("files", .arr [.table [("src", .str "a"), ("dst", .str "b")]])]) =
    .ok (.table [("source", .table [("repo", .str ""), ("ref", .str "")]),
        ("files", .arr [.table [("src", .str "a"), ("dst", .str "b")]]),
        ("options", .table [("mode", .str "check")])]) := rfl

/-- C5 (amended): `load_config` accepts a parsed configuration (returns
it, with defaults injected, instead of raising) exactly when: the top
level is a table, `source` is a table containing the keys `repo` and
`ref` (with any values, empty strings included), `files` is a
non-empty list of tables each containing `src` and `dst`, and
`options`, when present, is a table whose `mode`, when present, is
`check` or `write` (a non-table `options` raises an uncaught
`TypeError`, which is also not acceptance). -/
theorem c5_load_config_acceptance (hv : Option String) (c : Toml) :
    (∃ c2, load_config_validate hv c = .ok c2) ↔
      acceptsConfig c = true := by
  cases c with
  | str s => simp [load_config_validate, acceptsConfig]
  | int n => simp [load_config_validate, acceptsConfig]
  | boolean b => simp [load_config_validate, acceptsConfig]
  | arr xs => simp [load_config_validate, acceptsConfig]
  | table kvs =>
    simp only [load_config_validate, acceptsConfig]
    cases hsrc : lookupKey kvs "source" with
    | none => simp
    | some src =>
      cases src with
      | str s => simp
      | int n => simp
      | boolean b => simp
      | arr xs => simp
      | table srcKvs =>
        cases hrepo : (lookupKey srcKvs "repo").isNone with
        | true =>
          simp [hrepo, Option.isNone_iff_eq_none.mp hrepo]
        | false =>
          cases href : (lookupKey srcKvs "ref").isNone with
          | true =>
            simp [hrepo, href, Option.isNone_iff_eq_none.mp href]
          | false =>
            have hrepoS : (lookupKey srcKvs "repo").isSome = true :=
              isSome_of_isNone_false hrepo
            have hrefS : (lookupKey srcKvs "ref").isSome = true :=
              isSome_of_isNone_false href
            simp only [hrepo, href, hrepoS, hrefS, Bool.false_eq_true,
              if_false, Bool.true_and]
            cases hfiles : lookupKey kvs "files" with
            | none => simp
            | some fv =>
              cases fv with
              | str s => simp
              | int n => simp
              | boolean b => simp
              | table t => simp
              | arr fl =>
                cases hemp : fl.isEmpty with
                | true => simp [hemp]
                | false =>
                  simp only [hemp, Bool.false_eq_true, if_false,
                    Bool.not_false, Bool.true_and]
                  cases hcheck : checkFileEntries 0 fl with
                  | some m =>
                    have : ¬ (fl.all fileEntryOk = true) := by
                      intro hall
                      have := (checkFileEntries_eq_none_iff fl 0).mpr hall
                      rw [hcheck] at this
                      exact absurd this (by simp)
                    simp [this]
                  | none =>
                    have hall : fl.all fileEntryOk = true :=
                      (checkFileEntries_eq_none_iff fl 0).mp hcheck
                    simp only [hall, Bool.true_and]
                    cases hov : lookupKey kvs "options" with
                    | none =>
                      simp only [hov, Option.isNone_none, if_true,
                        lookupKey_tableSet_self, optionsOk, hov]
                      simp [pyMem, lookupKey, finishMode,
                        lookupKey_tableSet_self, tableSet, modeOk, pyEqStr]
                    | some opts =>
                      simp only [hov, Option.isNone_some,
                        Bool.false_eq_true, if_false, optionsOk]
                      cases opts with
                      | table optKvs =>
                        cases hmode : lookupKey optKvs "mode" with
                        | none =>
                          simp only [pyMem, hmode, Option.isSome_none,
                            Bool.false_eq_true, if_false]
                          simp [finishMode, lookupKey_tableSet_self,
                            modeOk, pyEqStr]
                        | some m =>
                          simp only [pyMem, hmode, Option.isSome_some,
                            if_true, finishMode, hov]
                          cases hmo : modeOk m with
                          | true => simp [hmo]
                          | false => simp [hmo]
                      | str s =>
                        cases hsub : strContainsSub s "mode" with
                        | true => simp [pyMem, hsub]
                        | false => simp [pyMem, hsub]
                      | int n => simp [pyMem]
                      | boolean b => simp [pyMem]
                      | arr xs =>
                        cases hel : xs.any (pyEqStr "mode") with
                        | true => simp [pyMem, hel]
                        | false => simp [pyMem, hel]

/-! ### C8: the no-op signal and the CLI exit mapping -/

theorem charsStart_subset :
    ∀ pat s : List Char, charsStart pat s = true → ∀ c ∈ pat, c ∈ s := by
  intro pat
  induction pat with
  | nil => intro s _ c hc; exact absurd hc (by simp)
  | cons a as ih =>
    intro s h c hc
    cases s with
    | nil => exact absurd h (by simp [charsStart])
    | cons b bs =>
      simp only [charsStart, Bool.and_eq_true, beq_iff_eq] at h
      rcases List.mem_cons.mp hc with hceq | hcmem
      · rw [hceq, h.1]
        exact List.mem_cons_self _ _
      · exact List.mem_cons_of_mem _ (ih bs h.2 c hcmem)

theorem charsHasSub_subset :
    ∀ s pat : List Char, charsHasSub pat s = true → ∀ c ∈ pat, c ∈ s := by
  intro s
  induction s with
  | nil =>
    intro pat h c hc
    simp only [charsHasSub, List.isEmpty_iff] at h
    rw [h] at hc
    exact absurd hc (by simp)
  | cons b bs ih =>
    intro pat h c hc
    simp only [charsHasSub, Bool.or_eq_true] at h
    rcases h with h | h
    · exact charsStart_subset pat (b :: bs) h c hc
    · exact List.mem_cons_of_mem _ (ih pat h c hc)

/-- A pattern containing a character the text lacks is not a
substring of it. -/
theorem strContainsSub_eq_false_of_missing {s pat : String} {c : Char}
    (hc : c ∈ pat.data) (hs : c ∉ s.data) :
    strContainsSub s pat = false := by
  cases h : strContainsSub s pat with
  | false => rfl
  | true =>
    unfold strContainsSub at h
    exact absurd (charsHasSub_subset s.data pat.data h c hc) hs

theorem digitChar_ne_dot (d : Nat) : digitChar d ≠ '.' := by
  unfold digitChar
  have h10 : d % 10 < 10 := Nat.mod_lt _ (by decide)
  revert h10
  generalize d % 10 = k
  intro h10
  interval_cases k <;> decide

theorem dot_not_in_natCharsGo :
    ∀ (fuel n : Nat) (acc : List Char), '.' ∉ acc →
      '.' ∉ natCharsGo fuel n acc := by
  intro fuel
  induction fuel with
  | zero =>
    intro n acc hacc
    simp only [natCharsGo]
    intro h
    rcases List.mem_cons.mp h with h | h
    · exact digitChar_ne_dot n h.symm
    · exact hacc h
  | succ f ih =>
    intro n acc hacc
    simp only [natCharsGo]
    by_cases h10 : n < 10
    · rw [if_pos h10]
      intro h
      rcases List.mem_cons.mp h with h | h
      · exact digitChar_ne_dot n h.symm
      · exact hacc h
    · rw [if_neg h10]
      refine ih (n / 10) (digitChar (n % 10) :: acc) ?_
      intro h
      rcases List.mem_cons.mp h with h | h
      · exact digitChar_ne_dot (n % 10) h.symm
      · exact hacc h

theorem dot_not_in_natStr (n : Nat) : '.' ∉ (natStr n).data :=
  dot_not_in_natCharsGo n n [] (by simp)

/-- The indexed `files[i] ...` validation messages never contain the
no-op marker (they contain no dot at all), so the CLI maps them to
exit 1. -/
theorem handle_filesMsg_eq_one (i : Nat) (tail : String)
    (htail : '.' ∉ tail.data) :
    handle_config_error ("files[" ++ natStr i ++ tail) = 1 := by
  unfold handle_config_error
  rw [strContainsSub_eq_false_of_missing
    (show '.' ∈ noopKey.data by decide) ?_]
  · rfl
  · rw [String.data_append, String.data_append]
    intro h
    rcases List.mem_append.mp h with h | h
    · rcases List.mem_append.mp h with h | h
      · exact absurd h (by decide)
      · exact dot_not_in_natStr i h
    · exact htail h

theorem checkFileEntries_error_exit_one :
    ∀ (l : List Toml) (i : Nat) (m : String),
    checkFileEntries i l = some m → handle_config_error m = 1 := by
  intro l
  induction l with
  | nil => intro i m h; exact absurd h (by simp [checkFileEntries])
  | cons e rest ih =>
    intro i m h
    simp only [checkFileEntries] at h
    cases hc : checkFileEntry i e with
    | some m2 =>
      rw [hc] at h
      simp only [Option.some.injEq] at h
      subst h
      cases e with
      | table kvs =>
        simp only [checkFileEntry] at hc
        by_cases hsrc : (lookupKey kvs "src").isNone
        · rw [if_pos hsrc] at hc
          rw [← Option.some.inj hc]
          exact handle_filesMsg_eq_one i _ (by decide)
        · rw [if_neg hsrc] at hc
          by_cases hdst : (lookupKey kvs "dst").isNone
          · rw [if_pos hdst] at hc
            rw [← Option.some.inj hc]
            exact handle_filesMsg_eq_one i _ (by decide)
          · rw [if_neg hdst] at hc
            exact absurd hc (by simp)
      | str s =>
        simp only [checkFileEntry] at hc
        rw [← Option.some.inj hc]
        exact handle_filesMsg_eq_one i _ (by decide)
      | int n =>
        simp only [checkFileEntry] at hc
        rw [← Option.some.inj hc]
        exact handle_filesMsg_eq_one i _ (by decide)
      | boolean b =>
        simp only [checkFileEntry] at hc
        rw [← Option.some.inj hc]
        exact handle_filesMsg_eq_one i _ (by decide)
      | arr xs =>
        simp only [checkFileEntry] at hc
        rw [← Option.some.inj hc]
        exact handle_filesMsg_eq_one i _ (by decide)
    | none =>
      rw [hc] at h
      exact ih (i + 1) m h

/-- Every `ConfigError` the validation stage can raise maps to exit 1
under the CLI marker test. -/
theorem load_config_validate_error_exit_one (hv : Option String)
    (c : Toml) (m : String)
    (h : load_config_validate hv c = .configError m) :
    handle_config_error m = 1 := by
  cases c with
  | str s =>
    simp only [load_config_validate] at h
    rw [← LoadOutcome.configError.inj h]
    decide
  | int n =>
    simp only [load_config_validate] at h
    rw [← LoadOutcome.configError.inj h]
    decide
  | boolean b =>
    simp only [load_config_validate] at h
    rw [← LoadOutcome.configError.inj h]
    decide
  | arr xs =>
    simp only [load_config_validate] at h
    rw [← LoadOutcome.configError.inj h]
    decide
  | table kvs =>
    simp only [load_config_validate] at h
    cases hsrc : lookupKey kvs "source" with
    | none =>
      rw [hsrc] at h
      rw [← LoadOutcome.configError.inj h]
      decide
    | some src =>
      rw [hsrc] at h
      cases src with
      | str s => rw [← LoadOutcome.configError.inj h]; decide
      | int n => rw [← LoadOutcome.configError.inj h]; decide
      | boolean b => rw [← LoadOutcome.configError.inj h]; decide
      | arr xs2 => rw [← LoadOutcome.configError.inj h]; decide
      | table srcKvs =>
        simp only at h
        by_cases hrepo : (lookupKey srcKvs "repo").isNone
        · rw [if_pos hrepo] at h
          rw [← LoadOutcome.configError.inj h]
          decide
        · rw [if_neg hrepo] at h
          by_cases href : (lookupKey srcKvs "ref").isNone
          · rw [if_pos href] at h
            rw [← LoadOutcome.configError.inj h]
            decide
          · rw [if_neg href] at h
            cases hfiles : lookupKey kvs "files" with
            | none =>
              rw [hfiles] at h
              rw [← LoadOutcome.configError.inj h]
              decide
            | some fv =>
              rw [hfiles] at h
              cases fv with
              | str s => rw [← LoadOutcome.configError.inj h]; decide
              | int n => rw [← LoadOutcome.configError.inj h]; decide
              | boolean b => rw [← LoadOutcome.configError.inj h]; decide
              | table t => rw [← LoadOutcome.configError.inj h]; decide
              | arr fl =>
                simp only at h
                by_cases hemp : fl.isEmpty
                · rw [if_pos hemp] at h
                  rw [← LoadOutcome.configError.inj h]
                  decide
                · rw [if_neg hemp] at h
                  cases hcheck : checkFileEntries 0 fl with
                  | some m2 =>
                    rw [hcheck] at h
                    have hm : m2 = m := LoadOutcome.configError.inj h
                    rw [← hm]
                    exact checkFileEntries_error_exit_one fl 0 m2 hcheck
                  | none =>
                    rw [hcheck] at h
                    simp only at h
                    cases hov : lookupKey
                        (if (lookupKey kvs "options").isNone then
                          tableSet kvs "options" (.table [])
                        else kvs) "options" with
                    | none =>
                      rw [hov] at h
                      exact absurd h (by simp)
                    | some opts =>
                      rw [hov] at h
                      dsimp only at h
                      cases hpm : pyMem "mode" opts with
                      | typeErr =>
                        rw [hpm] at h
                        exact absurd h (by simp)
                      | absent =>
                        rw [hpm] at h
                        cases opts with
                        | table optKvs =>
                          simp only [finishMode,
                            lookupKey_tableSet_self] at h
                          rw [if_pos (show modeOk (.str "check") = true
                            from by decide)] at h
                          exact absurd h (by simp)
                        | str s => exact absurd h (by simp)
                        | int n => exact absurd h (by simp)
                        | boolean b => exact absurd h (by simp)
                        | arr xs2 => exact absurd h (by simp)
                      | found =>
                        rw [hpm] at h
                        cases opts with
                        | table optKvs =>
                          simp only [finishMode, hov] at h
                          cases hmode : lookupKey optKvs "mode" with
                          | none =>
                            rw [hmode] at h
                            exact absurd h (by simp)
                          | some mv =>
                            rw [hmode] at h
                            dsimp only at h
                            by_cases hmo : modeOk mv
                            · rw [if_pos hmo] at h
                              exact absurd h (by simp)
                            · rw [if_neg hmo] at h
                              rw [← LoadOutcome.configError.inj h]
                              decide
                        | str s => exact absurd h (by simp)
                        | int n => exact absurd h (by simp)
                        | boolean b => exact absurd h (by simp)
                        | arr xs2 => exact absurd h (by simp)

theorem charsStart_append_split :
    ∀ pat z y : List Char, charsStart pat (z ++ y) = true →
      charsStart pat z = true ∨ charsStart z pat = true := by
  intro pat
  induction pat with
  | nil => intro z y _; left; rfl
  | cons a as ih =>
    intro z y h
    cases z with
    | nil => right; rfl
    | cons b bs =>
      simp only [List.cons_append, charsStart, Bool.and_eq_true,
        beq_iff_eq] at h
      rcases ih bs y h.2 with h2 | h2
      · left
        simp [charsStart, h.1, h2]
      · right
        simp [charsStart, h.1.symm, h2]

/-- If the pattern occurs neither inside `x`, nor inside `y`, and no
non-empty suffix of `x` is a prefix of the pattern (so no occurrence
can straddle the boundary), then it does not occur in `x ++ y`. -/
theorem charsHasSub_append_false (pat : List Char) :
    ∀ x y : List Char, charsHasSub pat x = false →
      (∀ t ∈ x.tails, t = [] ∨ charsStart t pat = false) →
      charsHasSub pat y = false →
      charsHasSub pat (x ++ y) = false := by
  intro x
  induction x with
  | nil => intro y _ _ hy; exact hy
  | cons c xs ih =>
    intro y hx hb hy
    simp only [charsHasSub, Bool.or_eq_false_iff] at hx
    have hrec : charsHasSub pat (xs ++ y) = false := by
      refine ih y hx.2 (fun t ht => ?_) hy
      refine hb t ?_
      rw [List.tails_cons]
      exact List.mem_cons_of_mem _ ht
    rw [List.cons_append]
    simp only [charsHasSub, Bool.or_eq_false_iff]
    refine ⟨?_, hrec⟩
    cases hcs : charsStart pat (c :: (xs ++ y)) with
    | false => rfl
    | true =>
      rw [show c :: (xs ++ y) = (c :: xs) ++ y from rfl] at hcs
      rcases charsStart_append_split pat (c :: xs) y hcs with h2 | h2
      · rw [hx.1] at h2
        exact absurd h2 (by simp)
      · have hmem : c :: xs ∈ (c :: xs).tails := by
          rw [List.tails_cons]
          exact List.mem_cons_self _ _
        rcases hb (c :: xs) hmem with h3 | h3
        · exact absurd h3 (by simp)
        · rw [h3] at h2
          exact absurd h2 (by simp)

/-- C8: the missing-config no-op signal is the `ConfigError` whose
message contains the marker `.sync-files.toml not found`, and the CLI
maps exactly it to exit 0: every validation `ConfigError` maps to 1,
and the read- and parse-failure `ConfigError`s map to 1 whenever the
embedded OS or decoder text does not itself contain the marker. -/
theorem c8_noop_signal_distinct_and_exit_mapping (hv : Option String) :
    (handle_config_error noopMsg = 0 ∧
      load_config hv .notFound = .configError noopMsg) ∧
    (∀ c m, load_config hv (.parsed c) = .configError m →
      handle_config_error m = 1) ∧
    (∀ e, strContainsSub e noopKey = false →
      (∀ m, load_config hv (.readError e) = .configError m →
        handle_config_error m = 1) ∧
      (∀ m, load_config hv (.parseError e) = .configError m →
        handle_config_error m = 1)) := by
  refine ⟨⟨by decide, rfl⟩, ?_, ?_⟩
  · intro c m h
    exact load_config_validate_error_exit_one hv c m h
  · intro e he
    constructor
    · intro m h
      simp only [load_config] at h
      rw [← LoadOutcome.configError.inj h]
      unfold handle_config_error
      rw [show strContainsSub ("Failed to read .sync-files.toml: " ++ e)
          noopKey = false from ?_]
      · rfl
      · unfold strContainsSub
        rw [String.data_append]
        exact charsHasSub_append_false noopKey.data
          "Failed to read .sync-files.toml: ".data e.data
          (by decide) (by decide) he
    · intro m h
      simp only [load_config] at h
      rw [← LoadOutcome.configError.inj h]
      unfold handle_config_error
      rw [show strContainsSub ("Failed to parse .sync-files.toml: " ++ e)
          noopKey = false from ?_]
      · rfl
      · unfold strContainsSub
        rw [String.data_append]
        exact charsHasSub_append_false noopKey.data
          "Failed to parse .sync-files.toml: ".data e.data
          (by decide) (by decide) he

/-- Witness for C8: the no-op message exits 0; a validation error and
a concrete parse error both exit 1. -/
theorem c8_witness :
    (handle_config_error noopMsg = 0 ∧
      load_config none .notFound = .configError noopMsg) ∧
    handle_config_error "Configuration must be a TOML table" = 1 ∧
    handle_config_error
      "Failed to parse .sync-files.toml: Invalid statement (at line 1, column 1)" = 1 :=
  ⟨(c8_noop_signal_distinct_and_exit_mapping none).1,
   (c8_noop_signal_distinct_and_exit_mapping none).2.1 (.int 0)
     "Configuration must be a TOML table" rfl,
   ((c8_noop_signal_distinct_and_exit_mapping none).2.2
     "Invalid statement (at line 1, column 1)" (by decide)).2
     "Failed to parse .sync-files.toml: Invalid statement (at line 1, column 1)"
     rfl⟩

end SyncFiles
